import Mathlib

/-!
Verification of the c1offersort offer-tile pipeline.

Shallow embedding of the reward-text parser (src/shared/domHelpers.ts and the
extended variant of the same module), the sorting comparator of
src/content/modules/sorting/executeSorting.ts, the tile filter of
applyFavoritesFilter, the adaptive pagination delay of
src/injected-scripts/pagination.ts, and the cross-context progress/result
marker protocol of the pagination orchestrator.

Strings are modelled as lists of characters; JavaScript regular expressions are
embedded as executable leftmost-match scanners specialised to the four concrete
patterns of the source; the JavaScript number type is modelled as Option of a
rational, with none standing for NaN.
-/

/-- Whitespace class: model of the JavaScript regex class backslash-s and of the
characters removed by String.prototype.trim, restricted to the ASCII whitespace
characters (the reward texts of this page contain no exotic Unicode spaces). -/
def jsSpace (c : Char) : Bool :=
  c == ' ' || c == '\t' || c == '\n' || c == '\r' || c == '\x0b' || c == '\x0c'

/-- Model of String.prototype.trim: drop whitespace at both ends. -/
def trimJS (s : List Char) : List Char :=
  ((s.dropWhile jsSpace).reverse.dropWhile jsSpace).reverse

/-- Case-insensitive literal match (the regex i flag): consume the literal from
the head of the subject, comparing lowercased characters, and return the rest of
the subject on success. -/
def matchLitCI : List Char → List Char → Option (List Char)
  | [], s => some s
  | _ :: _, [] => none
  | l :: ls, c :: cs => if c.toLower = l.toLower then matchLitCI ls cs else none

/-- Numeric value of a decimal digit character. -/
def digitVal (c : Char) : Nat := c.toNat - '0'.toNat

/-- Value of a string of decimal digits. -/
def digitsToNat (s : List Char) : Nat := s.foldl (fun n c => 10 * n + digitVal c) 0

/-- Model of JavaScript parseInt(s, 10) on an unsigned token: skip leading
whitespace, read the leading run of decimal digits; none models NaN (no digits). -/
def parseIntJS (s : List Char) : Option Nat :=
  let t := s.dropWhile jsSpace
  let ds := t.takeWhile Char.isDigit
  if ds.isEmpty then none else some (digitsToNat ds)

/-- Model of JavaScript parseInt(s, 10) including a leading minus sign, as needed
by the pagination result parser; none models NaN. -/
def parseIntSigned (s : List Char) : Option Int :=
  match s.dropWhile jsSpace with
  | '-' :: r =>
    let ds := r.takeWhile Char.isDigit
    if ds.isEmpty then none else some (-(digitsToNat ds : Int))
  | t =>
    let ds := t.takeWhile Char.isDigit
    if ds.isEmpty then none else some ((digitsToNat ds : Int))

/-- Model of JavaScript parseFloat on the decimal tokens captured by the percent
and dollar reward patterns (digits with an optional fraction, no sign and no
exponent); none models NaN. -/
def parseFloatJS (s : List Char) : Option ℚ :=
  let ds := s.takeWhile Char.isDigit
  if ds.isEmpty then none
  else
    let rest := s.dropWhile Char.isDigit
    match rest with
    | '.' :: r =>
      let fs := r.takeWhile Char.isDigit
      some ((digitsToNat ds : ℚ) + (digitsToNat fs : ℚ) / ((10 : ℚ) ^ fs.length))
    | _ => some ((digitsToNat ds : ℚ))

/-- Character class [0-9,] of MILES_PATTERN. -/
def milesChar (c : Char) : Bool := c.isDigit || c == ','

/-- Test of MULTIPLIER_PATTERN, the regex (backslash-d+)X backslash-s+ miles
with flag i, at the head of the subject: a nonempty digit run, then the letter
X, then whitespace, then the word miles. Greedy matching without backtracking is
faithful here because a digit can never match the X, and a whitespace character
can never start the literal. -/
def multiplierHereOK (s : List Char) : Bool :=
  !(s.takeWhile Char.isDigit).isEmpty &&
    (match s.dropWhile Char.isDigit with
     | x :: rest =>
       x.toLower == 'x' && !(rest.takeWhile jsSpace).isEmpty &&
         (matchLitCI ['m', 'i', 'l', 'e', 's'] (rest.dropWhile jsSpace)).isSome
     | [] => false)

/-- Attempt to match MULTIPLIER_PATTERN at the head of the subject, returning
the digits captured by the group. -/
def matchMultiplierHere (s : List Char) : Option (List Char) :=
  if multiplierHereOK s then some (s.takeWhile Char.isDigit) else none

/-- Leftmost match of MULTIPLIER_PATTERN: start positions are scanned left to
right, as the JavaScript engine does for an unanchored pattern. -/
def searchMultiplier : List Char → Option (List Char)
  | [] => none
  | c :: rest =>
    match matchMultiplierHere (c :: rest) with
    | some ds => some ds
    | none => searchMultiplier rest

/-- Test of ([0-9,]+) backslash-s+ miles, the part of MILES_PATTERN after its
optional group, at the head of the subject. -/
def milesCoreOK (s : List Char) : Bool :=
  !(s.takeWhile milesChar).isEmpty &&
    !((s.dropWhile milesChar).takeWhile jsSpace).isEmpty &&
    (matchLitCI ['m', 'i', 'l', 'e', 's'] ((s.dropWhile milesChar).dropWhile jsSpace)).isSome

/-- Match the core of MILES_PATTERN at the head of the subject, returning the
captured [0-9,]+ token. -/
def matchMilesCore (s : List Char) : Option (List Char) :=
  if milesCoreOK s then some (s.takeWhile milesChar) else none

/-- Attempt to match MILES_PATTERN, the regex (?:Up to )?([0-9,]+) backslash-s+
miles with flag i, at the head of the subject: the greedy optional group is
tried first, and on failure of the remainder the engine backtracks to the bare
core, exactly as the JavaScript engine does. -/
def matchMilesHere (s : List Char) : Option (List Char) :=
  match matchLitCI ['U', 'p', ' ', 't', 'o', ' '] s with
  | some rest =>
    match matchMilesCore rest with
    | some ds => some ds
    | none => matchMilesCore s
  | none => matchMilesCore s

/-- Leftmost match of MILES_PATTERN. -/
def searchMiles : List Char → Option (List Char)
  | [] => none
  | c :: rest =>
    match matchMilesHere (c :: rest) with
    | some ds => some ds
    | none => searchMiles rest

/-- Capture of ([0-9]+(?:.[0-9]+)?) at the head of the subject: greedy digits,
then a greedy optional fraction group; returns the capture and the rest. The
optional group cannot profitably backtrack against the following percent or
back literal, so greedy matching is faithful. -/
def matchDecimalHere (s : List Char) : Option (List Char × List Char) :=
  let ds := s.takeWhile Char.isDigit
  if ds.isEmpty then none
  else
    let rest := s.dropWhile Char.isDigit
    match rest with
    | '.' :: r =>
      let fs := r.takeWhile Char.isDigit
      if fs.isEmpty then some (ds, rest)
      else some (ds ++ '.' :: fs, r.dropWhile Char.isDigit)
    | _ => some (ds, rest)

/-- Match backslash-s* back (flag i) at the head of the subject. -/
def matchBackTail (s : List Char) : Bool :=
  (matchLitCI ['b', 'a', 'c', 'k'] (s.dropWhile jsSpace)).isSome

/-- Attempt to match PERCENT_BACK_PATTERN, ([0-9]+(?:.[0-9]+)?)% backslash-s*
back with flag i, at the head of the subject, returning the capture. -/
def matchPercentHere (s : List Char) : Option (List Char) :=
  match matchDecimalHere s with
  | some (ds, rest) =>
    match rest with
    | '%' :: r => if matchBackTail r then some ds else none
    | _ => none
  | none => none

/-- Leftmost match of PERCENT_BACK_PATTERN. -/
def searchPercent : List Char → Option (List Char)
  | [] => none
  | c :: rest =>
    match matchPercentHere (c :: rest) with
    | some ds => some ds
    | none => searchPercent rest

/-- Attempt to match DOLLAR_BACK_PATTERN, the dollar sign then
([0-9]+(?:.[0-9]+)?) backslash-s* back with flag i, at the head of the subject. -/
def matchDollarHere (s : List Char) : Option (List Char) :=
  match s with
  | '$' :: r =>
    match matchDecimalHere r with
    | some (ds, rest) => if matchBackTail rest then some ds else none
    | none => none
  | _ => none

/-- Leftmost match of DOLLAR_BACK_PATTERN. -/
def searchDollar : List Char → Option (List Char)
  | [] => none
  | c :: rest =>
    match matchDollarHere (c :: rest) with
    | some ds => some ds
    | none => searchDollar rest

/-- The cleaning step at the top of parseMileageValue and detectOfferType:
text.replace of every asterisk by nothing, then trim. -/
def cleanRewardText (s : List Char) : List Char :=
  trimJS (s.filter (fun c => c != '*'))

/-- Offer kinds returned by detectOfferType. -/
inductive OfferType
  | multiplier
  | static
  | unknown
deriving DecidableEq

namespace DomHelpers

/-- Embedding of parseMileageValue (src/shared/domHelpers.ts lines 219-233):
strip asterisks and trim, try MULTIPLIER_PATTERN (capture times 1000), then
MILES_PATTERN (capture with commas removed through parseInt), else 0. The
result none models the JavaScript NaN produced when parseInt receives a token
without digits. -/
def parseMileageValue (text : List Char) : Option ℚ :=
  let cleanedText := cleanRewardText text
  match searchMultiplier cleanedText with
  | some ds => (parseIntJS ds).map (fun n => (n : ℚ) * 1000)
  | none =>
    match searchMiles cleanedText with
    | some ds => (parseIntJS (ds.filter (fun c => c != ','))).map (fun n => (n : ℚ))
    | none => some 0

end DomHelpers

/-- Embedding of detectOfferType (src/shared/domHelpers.ts lines 235-247). -/
def detectOfferType (mileageText : List Char) : OfferType :=
  let cleanedText := cleanRewardText mileageText
  if (searchMultiplier cleanedText).isSome then .multiplier
  else if (searchMiles cleanedText).isSome then .static
  else .unknown

namespace Part023

/-- Embedding of the extended parseMileageValue (the unnamed domHelpers variant,
lines 210-240): after the multiplier and miles patterns it also recognises
percent-back and dollar-back rewards through parseFloat of the capture. -/
def parseMileageValue (text : List Char) : Option ℚ :=
  let cleanedText := cleanRewardText text
  match searchMultiplier cleanedText with
  | some ds => (parseIntJS ds).map (fun n => (n : ℚ) * 1000)
  | none =>
    match searchMiles cleanedText with
    | some ds => (parseIntJS (ds.filter (fun c => c != ','))).map (fun n => (n : ℚ))
    | none =>
      match searchPercent cleanedText with
      | some ds => parseFloatJS ds
      | none =>
        match searchDollar cleanedText with
        | some ds => parseFloatJS ds
        | none => some 0

end Part023

/-- Shape predicate written from the specification wording, for comparison with
the code: a maximal [0-9,] token that contains at least one digit (a
number-with-commas) followed by whitespace and the word miles, at the head. -/
def specStaticHere (s : List Char) : Bool :=
  let ds := s.takeWhile milesChar
  (!ds.isEmpty && ds.any Char.isDigit) &&
    (let rest := s.dropWhile milesChar
     !(rest.takeWhile jsSpace).isEmpty &&
       (matchLitCI ['m', 'i', 'l', 'e', 's'] (rest.dropWhile jsSpace)).isSome)

/-- Shape predicate written from the specification wording: the text contains a
number-with-commas followed by whitespace and the word miles. -/
def specStaticShape : List Char → Bool
  | [] => false
  | c :: rest => specStaticHere (c :: rest) || specStaticShape rest

/-- Shape predicate written from the specification wording: digits, the letter
X, whitespace and the word miles, at the head. -/
def specMultiplierHere (s : List Char) : Bool :=
  let ds := s.takeWhile Char.isDigit
  !ds.isEmpty &&
    (match s.dropWhile Char.isDigit with
     | x :: rest =>
       x.toLower == 'x' && !(rest.takeWhile jsSpace).isEmpty &&
         (matchLitCI ['m', 'i', 'l', 'e', 's'] (rest.dropWhile jsSpace)).isSome
     | [] => false)

/-- Shape predicate written from the specification wording: the text contains a
digit multiplier followed by X, whitespace and the word miles. -/
def specMultiplierShape : List Char → Bool
  | [] => false
  | c :: rest => specMultiplierHere (c :: rest) || specMultiplierShape rest

/-! Character-class and capture lemmas for the reward parser. -/

theorem digit_not_jsSpace (c : Char) (h : Char.isDigit c = true) : jsSpace c = false := by
  cases hx : jsSpace c
  · rfl
  · exfalso
    unfold jsSpace at hx
    simp only [Bool.or_eq_true, beq_iff_eq] at hx
    rcases hx with ((((rfl | rfl) | rfl) | rfl) | rfl) | rfl <;> exact absurd h (by decide)

theorem digit_ne_comma (c : Char) (h : Char.isDigit c = true) : (c != ',') = true := by
  cases hx : (c != ',')
  · exfalso
    simp only [bne_eq_false_iff_eq] at hx
    subst hx
    exact absurd h (by decide)
  · rfl

theorem takeWhile_eq_self_of_all {p : Char → Bool} :
    ∀ {l : List Char}, (∀ c ∈ l, p c = true) → l.takeWhile p = l
  | [], _ => rfl
  | c :: cs, h => by
    have hc := h c (List.mem_cons_self _ _)
    have ht : cs.takeWhile p = cs :=
      takeWhile_eq_self_of_all fun x hx => h x (List.mem_cons_of_mem _ hx)
    rw [List.takeWhile_cons, hc]
    simp [ht]

theorem matchMultiplierHere_capture {s ds : List Char}
    (h : matchMultiplierHere s = some ds) :
    ds ≠ [] ∧ ∀ c ∈ ds, Char.isDigit c = true := by
  unfold matchMultiplierHere at h
  by_cases hb : multiplierHereOK s = true
  · rw [if_pos hb] at h
    cases h
    refine ⟨?_, fun c hc => List.mem_takeWhile_imp hc⟩
    have hne : (!(s.takeWhile Char.isDigit).isEmpty) = true := by
      simp only [multiplierHereOK, Bool.and_eq_true] at hb
      exact hb.1
    intro hnil
    rw [hnil] at hne
    simp at hne
  · rw [if_neg hb] at h
    cases h

theorem searchMultiplier_capture :
    ∀ {s ds : List Char}, searchMultiplier s = some ds →
      ds ≠ [] ∧ ∀ c ∈ ds, Char.isDigit c = true
  | [], _, h => by simp [searchMultiplier] at h
  | c :: rest, ds, h => by
    rw [searchMultiplier] at h
    rcases hm : matchMultiplierHere (c :: rest) with _ | ds2 <;> rw [hm] at h
    · exact searchMultiplier_capture h
    · cases h
      exact matchMultiplierHere_capture hm

theorem matchMilesCore_capture {s ds : List Char}
    (h : matchMilesCore s = some ds) :
    ds ≠ [] ∧ ∀ c ∈ ds, milesChar c = true := by
  unfold matchMilesCore at h
  by_cases hb : milesCoreOK s = true
  · rw [if_pos hb] at h
    cases h
    refine ⟨?_, fun c hc => List.mem_takeWhile_imp hc⟩
    have hne : (!(s.takeWhile milesChar).isEmpty) = true := by
      simp only [milesCoreOK, Bool.and_eq_true] at hb
      exact hb.1.1
    intro hnil
    rw [hnil] at hne
    simp at hne
  · rw [if_neg hb] at h
    cases h

theorem matchMilesHere_capture {s ds : List Char}
    (h : matchMilesHere s = some ds) :
    ds ≠ [] ∧ ∀ c ∈ ds, milesChar c = true := by
  unfold matchMilesHere at h
  split at h
  · split at h
    next ds2 hc =>
      cases h
      exact matchMilesCore_capture hc
    next hc => exact matchMilesCore_capture h
  · exact matchMilesCore_capture h

theorem searchMiles_capture :
    ∀ {s ds : List Char}, searchMiles s = some ds →
      ds ≠ [] ∧ ∀ c ∈ ds, milesChar c = true
  | [], _, h => by simp [searchMiles] at h
  | c :: rest, ds, h => by
    rw [searchMiles] at h
    rcases hm : matchMilesHere (c :: rest) with _ | ds2 <;> rw [hm] at h
    · exact searchMiles_capture h
    · cases h
      exact matchMilesHere_capture hm

theorem parseIntJS_digits {ds : List Char} (hne : ds ≠ [])
    (hall : ∀ c ∈ ds, Char.isDigit c = true) :
    parseIntJS ds = some (digitsToNat ds) := by
  cases ds with
  | nil => exact absurd rfl hne
  | cons c cs =>
    have hc := hall c (List.mem_cons_self _ _)
    unfold parseIntJS
    rw [List.dropWhile_cons, digit_not_jsSpace c hc]
    simp only [Bool.false_eq_true, if_false]
    rw [takeWhile_eq_self_of_all hall]
    rfl

theorem filter_comma_all_digits {ds : List Char} (hall : ∀ c ∈ ds, milesChar c = true) :
    ∀ c ∈ ds.filter (fun c => c != ','), Char.isDigit c = true := by
  intro c hc
  rw [List.mem_filter] at hc
  have h1 := hall c hc.1
  simp only [milesChar, Bool.or_eq_true, beq_iff_eq] at h1
  rcases h1 with h1 | h1
  · exact h1
  · subst h1
    have := hc.2
    simp at this

theorem filter_comma_ne_nil {ds : List Char} (hdig : ds.any Char.isDigit = true) :
    ds.filter (fun c => c != ',') ≠ [] := by
  rw [List.any_eq_true] at hdig
  obtain ⟨c, hc, hcd⟩ := hdig
  intro hnil
  have hmem : c ∈ ds.filter (fun c => c != ',') := by
    rw [List.mem_filter]
    exact ⟨hc, digit_ne_comma c hcd⟩
  rw [hnil] at hmem
  cases hmem

theorem filter_comma_eq_nil {ds : List Char} (hall : ∀ c ∈ ds, milesChar c = true)
    (hnd : ds.any Char.isDigit = false) :
    ds.filter (fun c => c != ',') = [] := by
  rw [List.filter_eq_nil_iff]
  intro c hc
  have h1 := hall c hc
  have h2 : ¬(Char.isDigit c = true) := by
    intro hd
    have hany : ds.any Char.isDigit = true := List.any_eq_true.mpr ⟨c, hc, hd⟩
    rw [hany] at hnd
    cases hnd
  simp only [milesChar, Bool.or_eq_true, beq_iff_eq] at h1
  rcases h1 with h1 | h1
  · exact absurd h1 h2
  · subst h1
    simp

/-- Unfolding equation of the domHelpers parseMileageValue. -/
theorem domHelpers_parseMileageValue_eq (text : List Char) :
    DomHelpers.parseMileageValue text =
      match searchMultiplier (cleanRewardText text) with
      | some ds => (parseIntJS ds).map (fun n => (n : ℚ) * 1000)
      | none =>
        match searchMiles (cleanRewardText text) with
        | some ds => (parseIntJS (ds.filter (fun c => c != ','))).map (fun n => (n : ℚ))
        | none => some 0 := rfl

/-- C1 counterexample: the reward text comma-space-miles matches neither the
multiplier shape nor the static number-with-commas shape stated by the claim,
yet parseMileageValue does not return 0 on it: MILES_PATTERN still matches it
with the digit-free capture comma, and parseInt of the comma-stripped empty
token is NaN (modelled as none), not 0. -/
theorem C1_counterexample :
    specMultiplierShape (cleanRewardText (", miles".data)) = false ∧
    specStaticShape (cleanRewardText (", miles".data)) = false ∧
    DomHelpers.parseMileageValue (", miles".data) = none ∧
    DomHelpers.parseMileageValue (", miles".data) ≠ some 0 :=
  ⟨by decide, by decide, by decide, by decide⟩

/-- C1 (amended): for reward text whose cleaned form is matched by
MULTIPLIER_PATTERN, parseMileageValue returns the captured digits times 1000;
otherwise, for text matched by MILES_PATTERN whose capture contains a digit it
returns the value of the comma-stripped capture, while a digit-free capture
(commas only) yields NaN (none) rather than 0; text matched by neither pattern
parses to 0. -/
theorem C1_parseMileageValue (text : List Char) :
    (∀ ds, searchMultiplier (cleanRewardText text) = some ds →
      DomHelpers.parseMileageValue text = some ((digitsToNat ds : ℚ) * 1000)) ∧
    (searchMultiplier (cleanRewardText text) = none →
      ∀ ds, searchMiles (cleanRewardText text) = some ds →
        (ds.any Char.isDigit = true →
          DomHelpers.parseMileageValue text =
            some ((digitsToNat (ds.filter (fun c => c != ',')) : ℚ))) ∧
        (ds.any Char.isDigit = false → DomHelpers.parseMileageValue text = none)) ∧
    (searchMultiplier (cleanRewardText text) = none →
      searchMiles (cleanRewardText text) = none →
      DomHelpers.parseMileageValue text = some 0) := by
  refine ⟨?_, ?_, ?_⟩
  · intro ds hm
    obtain ⟨hne, hall⟩ := searchMultiplier_capture hm
    rw [domHelpers_parseMileageValue_eq, hm]
    show (parseIntJS ds).map (fun n => (n : ℚ) * 1000) = _
    rw [parseIntJS_digits hne hall]
    rfl
  · intro hm ds hs
    obtain ⟨hne, hall⟩ := searchMiles_capture hs
    constructor
    · intro hdig
      rw [domHelpers_parseMileageValue_eq, hm, hs]
      show (parseIntJS (ds.filter (fun c => c != ','))).map (fun n => (n : ℚ)) = _
      rw [parseIntJS_digits (filter_comma_ne_nil hdig) (filter_comma_all_digits hall)]
      rfl
    · intro hnd
      rw [domHelpers_parseMileageValue_eq, hm, hs]
      show (parseIntJS (ds.filter (fun c => c != ','))).map (fun n => (n : ℚ)) = _
      rw [filter_comma_eq_nil hall hnd]
      rfl
  · intro hm hs
    rw [domHelpers_parseMileageValue_eq, hm, hs]

/-- Witness for the amended C1 theorem at the concrete reward text 5X miles. -/
theorem C1_parseMileageValue_witness :
    DomHelpers.parseMileageValue ("5X miles".data) =
      some ((digitsToNat ['5'] : ℚ) * 1000) :=
  (C1_parseMileageValue ("5X miles".data)).1 ['5'] (by decide)

theorem matchDecimalHere_head {s ds rst : List Char}
    (h : matchDecimalHere s = some (ds, rst)) :
    ∃ d dd, ds = d :: dd ∧ Char.isDigit d = true := by
  simp only [matchDecimalHere] at h
  split at h
  · cases h
  next hb =>
    rcases ht : s.takeWhile Char.isDigit with _ | ⟨d, dd⟩
    · rw [ht] at hb
      simp at hb
    · have hd : Char.isDigit d = true := by
        have hmem : d ∈ s.takeWhile Char.isDigit := by
          rw [ht]
          exact List.mem_cons_self _ _
        exact List.mem_takeWhile_imp hmem
      split at h
      · split at h
        · cases h
          exact ⟨d, dd, by rw [ht], hd⟩
        · cases h
          exact ⟨d, dd ++ '.' :: _, by rw [ht]; rfl, hd⟩
      · cases h
        exact ⟨d, dd, by rw [ht], hd⟩

theorem parseFloatJS_isSome {ds : List Char}
    (h : ∃ d dd, ds = d :: dd ∧ Char.isDigit d = true) :
    (parseFloatJS ds).isSome = true := by
  obtain ⟨d, dd, rfl, hd⟩ := h
  simp only [parseFloatJS, List.takeWhile_cons, hd, if_true, List.isEmpty_cons,
    Bool.false_eq_true, if_false]
  split <;> rfl

theorem matchPercentHere_capture {s ds : List Char}
    (h : matchPercentHere s = some ds) :
    (parseFloatJS ds).isSome = true := by
  unfold matchPercentHere at h
  split at h
  next ds2 rest2 hdec =>
    split at h
    · split at h
      · cases h
        exact parseFloatJS_isSome (matchDecimalHere_head hdec)
      · cases h
    · cases h
  · cases h

theorem searchPercent_capture :
    ∀ {s ds : List Char}, searchPercent s = some ds → (parseFloatJS ds).isSome = true
  | [], _, h => by simp [searchPercent] at h
  | c :: rest, ds, h => by
    rw [searchPercent] at h
    rcases hm : matchPercentHere (c :: rest) with _ | ds2 <;> rw [hm] at h
    · exact searchPercent_capture h
    · cases h
      exact matchPercentHere_capture hm

theorem matchDollarHere_capture {s ds : List Char}
    (h : matchDollarHere s = some ds) :
    (parseFloatJS ds).isSome = true := by
  unfold matchDollarHere at h
  split at h
  next r =>
    split at h
    next ds2 rest2 hdec =>
      split at h
      · cases h
        exact parseFloatJS_isSome (matchDecimalHere_head hdec)
      · cases h
    · cases h
  · cases h

theorem searchDollar_capture :
    ∀ {s ds : List Char}, searchDollar s = some ds → (parseFloatJS ds).isSome = true
  | [], _, h => by simp [searchDollar] at h
  | c :: rest, ds, h => by
    rw [searchDollar] at h
    rcases hm : matchDollarHere (c :: rest) with _ | ds2 <;> rw [hm] at h
    · exact searchDollar_capture h
    · cases h
      exact matchDollarHere_capture hm

/-- Unfolding equation of the extended parseMileageValue. -/
theorem part023_parseMileageValue_eq (text : List Char) :
    Part023.parseMileageValue text =
      match searchMultiplier (cleanRewardText text) with
      | some ds => (parseIntJS ds).map (fun n => (n : ℚ) * 1000)
      | none =>
        match searchMiles (cleanRewardText text) with
        | some ds => (parseIntJS (ds.filter (fun c => c != ','))).map (fun n => (n : ℚ))
        | none =>
          match searchPercent (cleanRewardText text) with
          | some ds => parseFloatJS ds
          | none =>
            match searchDollar (cleanRewardText text) with
            | some ds => parseFloatJS ds
            | none => some 0 := rfl

/-- Unfolding equation of detectOfferType. -/
theorem detectOfferType_eq (text : List Char) :
    detectOfferType text =
      (if (searchMultiplier (cleanRewardText text)).isSome then OfferType.multiplier
       else if (searchMiles (cleanRewardText text)).isSome then OfferType.static
       else OfferType.unknown) := rfl

/-- C2 counterexample: the reward text comma-space-miles is none of the four
shapes stated by the claim (no digit multiplier, no number-with-commas, no
percent-back, no dollar-back), yet the extended parseMileageValue returns NaN
(none) instead of 0 and detectOfferType classifies it static instead of
unknown, because MILES_PATTERN matches the digit-free token comma. -/
theorem C2_counterexample :
    specMultiplierShape (cleanRewardText (", miles".data)) = false ∧
    specStaticShape (cleanRewardText (", miles".data)) = false ∧
    searchPercent (cleanRewardText (", miles".data)) = none ∧
    searchDollar (cleanRewardText (", miles".data)) = none ∧
    Part023.parseMileageValue (", miles".data) = none ∧
    Part023.parseMileageValue (", miles".data) ≠ some 0 ∧
    detectOfferType (", miles".data) = OfferType.static :=
  ⟨by decide, by decide, by decide, by decide, by decide, by decide, by decide⟩

/-- C2 (amended): reward parsing recognises the four regex shapes in priority
order multiplier, miles, percent-back, dollar-back on the asterisk-stripped
text. A multiplier match parses to the captured digit run times 1000 with kind
multiplier; a miles match parses to the comma-stripped capture with kind
static when the capture contains a digit, and to NaN (none) with kind static
when it does not; with neither of those, a percent or dollar match parses to
parseFloat of its capture (a number, not NaN) with kind unknown; text matching
none of the patterns parses to 0 with kind unknown. -/
theorem C2_rewardParsing (text : List Char) :
    (∀ ds, searchMultiplier (cleanRewardText text) = some ds →
      Part023.parseMileageValue text = some ((digitsToNat ds : ℚ) * 1000) ∧
      detectOfferType text = OfferType.multiplier) ∧
    (searchMultiplier (cleanRewardText text) = none →
      ∀ ds, searchMiles (cleanRewardText text) = some ds →
        detectOfferType text = OfferType.static ∧
        (ds.any Char.isDigit = true →
          Part023.parseMileageValue text =
            some ((digitsToNat (ds.filter (fun c => c != ',')) : ℚ))) ∧
        (ds.any Char.isDigit = false → Part023.parseMileageValue text = none)) ∧
    (searchMultiplier (cleanRewardText text) = none →
      searchMiles (cleanRewardText text) = none →
      detectOfferType text = OfferType.unknown ∧
      (∀ ds, searchPercent (cleanRewardText text) = some ds →
        Part023.parseMileageValue text = parseFloatJS ds ∧
          (parseFloatJS ds).isSome = true) ∧
      (searchPercent (cleanRewardText text) = none →
        ∀ ds, searchDollar (cleanRewardText text) = some ds →
          Part023.parseMileageValue text = parseFloatJS ds ∧
            (parseFloatJS ds).isSome = true) ∧
      (searchPercent (cleanRewardText text) = none →
        searchDollar (cleanRewardText text) = none →
        Part023.parseMileageValue text = some 0)) := by
  refine ⟨?_, ?_, ?_⟩
  · intro ds hm
    obtain ⟨hne, hall⟩ := searchMultiplier_capture hm
    constructor
    · rw [part023_parseMileageValue_eq, hm]
      show (parseIntJS ds).map (fun n => (n : ℚ) * 1000) = _
      rw [parseIntJS_digits hne hall]
      rfl
    · rw [detectOfferType_eq, hm]
      rfl
  · intro hm ds hs
    obtain ⟨hne, hall⟩ := searchMiles_capture hs
    refine ⟨by rw [detectOfferType_eq, hm, hs]; rfl, ?_, ?_⟩
    · intro hdig
      rw [part023_parseMileageValue_eq, hm, hs]
      show (parseIntJS (ds.filter (fun c => c != ','))).map (fun n => (n : ℚ)) = _
      rw [parseIntJS_digits (filter_comma_ne_nil hdig) (filter_comma_all_digits hall)]
      rfl
    · intro hnd
      rw [part023_parseMileageValue_eq, hm, hs]
      show (parseIntJS (ds.filter (fun c => c != ','))).map (fun n => (n : ℚ)) = _
      rw [filter_comma_eq_nil hall hnd]
      rfl
  · intro hm hs
    refine ⟨by rw [detectOfferType_eq, hm, hs]; rfl, ?_, ?_, ?_⟩
    · intro ds hp
      rw [part023_parseMileageValue_eq, hm, hs, hp]
      exact ⟨rfl, searchPercent_capture hp⟩
    · intro hp ds hd
      rw [part023_parseMileageValue_eq, hm, hs, hp, hd]
      exact ⟨rfl, searchDollar_capture hd⟩
    · intro hp hd
      rw [part023_parseMileageValue_eq, hm, hs, hp, hd]

/-- Witness for the amended C2 theorem at the concrete reward text 10% back. -/
theorem C2_rewardParsing_witness :
    Part023.parseMileageValue ("10% back".data) = parseFloatJS ("10".data) ∧
      (parseFloatJS ("10".data)).isSome = true :=
  ((C2_rewardParsing ("10% back".data)).2.2 (by decide) (by decide)).2.1
    ("10".data) (by decide)

/-! Sorting engine of performSort (executeSorting.ts lines 31-115). The parsed
mileage value that fills the comparator's field is the result of
parseMileageValue, a JavaScript number that can be NaN on reachable reward
text, so the mileage field is an Option with none standing for NaN, in the
same convention as the parser embedding. -/

/-- Per-tile data extracted in the read phase of performSort: the parsed
mileage value (none models NaN) and the merchant display name (the DOM element
reference plays no role in the ordering and is omitted). -/
structure TileData where
  mileage : Option ℚ
  merchantName : List Char
deriving DecidableEq

/-- Three-way lexicographic comparison of character lists, the model of
String.prototype.localeCompare restricted to its sign contract (negative, zero,
positive) using code-point order. -/
def lexCmp : List Char → List Char → Int
  | [], [] => 0
  | [], _ :: _ => -1
  | _ :: _, [] => 1
  | a :: as, b :: bs => if a < b then -1 else if b < a then 1 else lexCmp as bs

/-- Test of sortOrder.startsWith of the literal desc-dash. -/
def startsWithDescDash (s : List Char) : Bool :=
  match s with
  | 'd' :: 'e' :: 's' :: 'c' :: '-' :: _ => true
  | _ => false

/-- Line 59 of executeSorting.ts: isDescending is true when sortOrder equals
desc or starts with desc-dash. -/
def isDescendingOrder (sortOrder : List Char) : Bool :=
  sortOrder == "desc".data || startsWithDescDash sortOrder

/-- Model of String.prototype.split at the dash character. -/
def splitDash : List Char → List (List Char)
  | [] => [[]]
  | c :: rest =>
    let parts := splitDash rest
    if c == '-' then [] :: parts
    else
      match parts with
      | p :: ps => (c :: p) :: ps
      | [] => [[c]]

/-- Lines 70-75 of executeSorting.ts: parse the combined sort order into the
mileage direction and the merchant direction; an order without a dash defaults
to desc for mileage and asc for merchants. -/
def combinedDirs (sortOrder : List Char) : List Char × List Char :=
  if sortOrder.contains '-' then
    match splitDash sortOrder with
    | a :: b :: _ => (a, b)
    | a :: [] => (a, [])
    | [] => ([], [])
  else ("desc".data, "asc".data)

/-- JavaScript subtraction on numbers that can be NaN: NaN propagates. -/
def subJS : Option ℚ → Option ℚ → Option ℚ
  | some x, some y => some (x - y)
  | _, _ => none

/-- Directed mileage comparison of the source (lines 78-80 and 93): descending
subtracts a from b, ascending b from a; a NaN mileage makes the whole
difference NaN. -/
def mileageCmpRaw (desc : Bool) (a b : TileData) : Option ℚ :=
  if desc then subJS b.mileage a.mileage else subJS a.mileage b.mileage

/-- Directed case-insensitive merchant-name comparison (lines 63-66 and
87-90): lowercase both names, compare, and negate for the descending
direction. localeCompare always returns an integer, never NaN. -/
def nameCmp (desc : Bool) (a b : TileData) : Int :=
  let comparison := lexCmp (a.merchantName.map Char.toLower) (b.merchantName.map Char.toLower)
  if desc then -comparison else comparison

/-- Embedding of the comparator passed to Array.prototype.sort in performSort
(lines 61-95), with none modelling a NaN result: alphabetical uses the directed
name comparison, merchantMileage compares mileage in its own direction and
falls through to the merchant name exactly on a zero difference (a NaN
difference satisfies the strict inequality against 0 and is returned as NaN,
never consulting the names), and any other criteria string compares mileage in
the direction of line 59. -/
def compareTiles (sortCriteria sortOrder : List Char) (a b : TileData) : Option ℚ :=
  if sortCriteria == "alphabetical".data then
    some (((nameCmp (isDescendingOrder sortOrder) a b : Int) : ℚ))
  else if sortCriteria == "merchantMileage".data then
    let dirs := combinedDirs sortOrder
    let mileageComparison := mileageCmpRaw (dirs.1 == "desc".data) a b
    if mileageComparison ≠ some 0 then mileageComparison
    else some (((nameCmp (dirs.2 == "desc".data) a b : Int) : ℚ))
  else
    mileageCmpRaw (isDescendingOrder sortOrder) a b

/-- The SortCompare step of ECMAScript Array.prototype.sort: a NaN comparator
result is replaced by plus zero, that is, the pair is treated as a tie. -/
def sortCompare (sortCriteria sortOrder : List Char) (a b : TileData) : ℚ :=
  match compareTiles sortCriteria sortOrder a b with
  | none => 0
  | some q => q

/-- Phase 2 of performSort: Array.prototype.sort with the comparator, modelled
as the stable merge sort ordered by a nonpositive coerced comparator result.
For a consistent comparator (every mileage a number) this is exactly the
output ECMAScript prescribes, the unique stable sorted permutation; when a NaN
mileage makes the comparator inconsistent, ECMAScript leaves the order
implementation-defined and the stable merge sort is one conforming
determinization. -/
def sortTiles (sortCriteria sortOrder : List Char) (tiles : List TileData) : List TileData :=
  tiles.mergeSort (fun a b => decide (sortCompare sortCriteria sortOrder a b ≤ 0))

/-- Numeric reading of a mileage, used only by the total proxy comparator. -/
def mileageVal (a : TileData) : ℚ := a.mileage.getD 0

/-- Directed mileage comparison on the numeric readings: agrees with the
coerced source comparison whenever both mileages are numbers. -/
def mileageCmp (desc : Bool) (a b : TileData) : ℚ :=
  if desc then mileageVal b - mileageVal a else mileageVal a - mileageVal b

/-- Total proxy of the comparator: the same branch structure as compareTiles
over the numeric mileage readings. It agrees with sortCompare whenever both
mileages are numbers, and being a total preorder it carries the
order-theoretic lemmas. -/
def compareTilesNum (sortCriteria sortOrder : List Char) (a b : TileData) : ℚ :=
  if sortCriteria == "alphabetical".data then
    ((nameCmp (isDescendingOrder sortOrder) a b : Int) : ℚ)
  else if sortCriteria == "merchantMileage".data then
    let dirs := combinedDirs sortOrder
    let mileageComparison := mileageCmp (dirs.1 == "desc".data) a b
    if mileageComparison ≠ 0 then mileageComparison
    else ((nameCmp (dirs.2 == "desc".data) a b : Int) : ℚ)
  else
    mileageCmp (isDescendingOrder sortOrder) a b

theorem subJS_none_left (y : Option ℚ) : subJS none y = none := rfl

theorem subJS_none_right (x : Option ℚ) : subJS x none = none := by
  cases x <;> rfl

theorem mileageCmpRaw_eq_num {a b : TileData} {x y : ℚ} (hx : a.mileage = some x)
    (hy : b.mileage = some y) (d : Bool) :
    mileageCmpRaw d a b = some (mileageCmp d a b) := by
  cases d <;> simp [mileageCmpRaw, subJS, mileageCmp, mileageVal, hx, hy]

theorem lexCmp_nil_le (c : List Char) : lexCmp [] c ≤ 0 := by
  cases c <;> simp [lexCmp]

theorem lexCmp_swap : ∀ (a b : List Char), lexCmp b a = -lexCmp a b
  | [], [] => by simp [lexCmp]
  | [], _ :: _ => by simp [lexCmp]
  | _ :: _, [] => by simp [lexCmp]
  | a :: as, b :: bs => by
    simp only [lexCmp]
    rcases lt_trichotomy a b with h | h | h
    · simp [h, lt_asymm h]
    · subst h
      simp [lt_irrefl, lexCmp_swap as bs]
    · simp [h, lt_asymm h]

theorem lexCmp_le_trans : ∀ (a b c : List Char),
    lexCmp a b ≤ 0 → lexCmp b c ≤ 0 → lexCmp a c ≤ 0
  | [], _, c, _, _ => lexCmp_nil_le c
  | _ :: _, [], _, h1, _ => by simp [lexCmp] at h1
  | _ :: _, _ :: _, [], _, h2 => by simp [lexCmp] at h2
  | a :: as, b :: bs, c :: cs, h1, h2 => by
    simp only [lexCmp] at h1 h2 ⊢
    rcases lt_trichotomy a b with hab | hab | hab
    · rcases lt_trichotomy b c with hbc | hbc | hbc
      · simp [lt_trans hab hbc]
      · subst hbc
        simp [hab]
      · rw [if_neg (lt_asymm hbc), if_pos hbc] at h2
        norm_num at h2
    · rcases lt_trichotomy b c with hbc | hbc | hbc
      · have hac : a < c := by rw [hab]; exact hbc
        simp [hac]
      · rw [hab.trans hbc]
        rw [hab] at h1
        rw [hbc] at h2
        simp only [lt_self_iff_false, if_false] at h1 h2 ⊢
        exact lexCmp_le_trans as bs cs h1 h2
      · rw [if_neg (lt_asymm hbc), if_pos hbc] at h2
        norm_num at h2
    · rw [if_neg (lt_asymm hab), if_pos hab] at h1
      norm_num at h1

theorem mileageCmp_swap (d : Bool) (a b : TileData) :
    mileageCmp d b a = -mileageCmp d a b := by
  cases d <;> simp [mileageCmp]

theorem mileageCmp_add (d : Bool) (a b c : TileData) :
    mileageCmp d a b + mileageCmp d b c = mileageCmp d a c := by
  cases d <;> simp [mileageCmp]

theorem nameCmp_swap (d : Bool) (a b : TileData) : nameCmp d b a = -nameCmp d a b := by
  cases d <;>
    simp [nameCmp, lexCmp_swap (a.merchantName.map Char.toLower)
      (b.merchantName.map Char.toLower)]

theorem nameCmp_le_trans (d : Bool) (a b c : TileData)
    (h1 : nameCmp d a b ≤ 0) (h2 : nameCmp d b c ≤ 0) : nameCmp d a c ≤ 0 := by
  cases d <;> simp only [nameCmp, if_true, if_false, Bool.false_eq_true] at h1 h2 ⊢
  · exact lexCmp_le_trans _ _ _ h1 h2
  · rw [neg_nonpos] at h1 h2
    rw [neg_nonpos]
    have h1a : lexCmp (b.merchantName.map Char.toLower) (a.merchantName.map Char.toLower) ≤ 0 := by
      rw [lexCmp_swap (a.merchantName.map Char.toLower) (b.merchantName.map Char.toLower)]
      omega
    have h2a : lexCmp (c.merchantName.map Char.toLower) (b.merchantName.map Char.toLower) ≤ 0 := by
      rw [lexCmp_swap (b.merchantName.map Char.toLower) (c.merchantName.map Char.toLower)]
      omega
    have h3 := lexCmp_le_trans _ _ _ h2a h1a
    rw [lexCmp_swap (a.merchantName.map Char.toLower) (c.merchantName.map Char.toLower)] at h3
    omega

/-- Unfolding of the source comparator at the merchantMileage criteria. -/
theorem compareTiles_merchantMileage (ord : List Char) (a b : TileData) :
    compareTiles "merchantMileage".data ord a b =
      (if mileageCmpRaw ((combinedDirs ord).1 == "desc".data) a b ≠ some 0
       then mileageCmpRaw ((combinedDirs ord).1 == "desc".data) a b
       else some (((nameCmp ((combinedDirs ord).2 == "desc".data) a b : Int) : ℚ))) := rfl

/-- Unfolding of the source comparator at the alphabetical criteria. -/
theorem compareTiles_alphabetical (ord : List Char) (a b : TileData) :
    compareTiles "alphabetical".data ord a b =
      some (((nameCmp (isDescendingOrder ord) a b : Int) : ℚ)) := rfl

/-- Unfolding of the source comparator at the mileage criteria (the default
branch). -/
theorem compareTiles_mileage (ord : List Char) (a b : TileData) :
    compareTiles "mileage".data ord a b =
      mileageCmpRaw (isDescendingOrder ord) a b := rfl

/-- Unfolding of the coercion of the comparator result. -/
theorem sortCompare_eq (crit ord : List Char) (a b : TileData) :
    sortCompare crit ord a b =
      (match compareTiles crit ord a b with
       | none => 0
       | some q => q) := rfl

/-- Unfolding of the proxy comparator at the merchantMileage criteria. -/
theorem compareTilesNum_merchantMileage (ord : List Char) (a b : TileData) :
    compareTilesNum "merchantMileage".data ord a b =
      (if mileageCmp ((combinedDirs ord).1 == "desc".data) a b ≠ 0
       then mileageCmp ((combinedDirs ord).1 == "desc".data) a b
       else ((nameCmp ((combinedDirs ord).2 == "desc".data) a b : Int) : ℚ)) := rfl

/-- Unfolding of the proxy comparator at the alphabetical criteria. -/
theorem compareTilesNum_alphabetical (ord : List Char) (a b : TileData) :
    compareTilesNum "alphabetical".data ord a b =
      ((nameCmp (isDescendingOrder ord) a b : Int) : ℚ) := rfl

/-- Unfolding of the proxy comparator at the mileage criteria. -/
theorem compareTilesNum_mileage (ord : List Char) (a b : TileData) :
    compareTilesNum "mileage".data ord a b =
      mileageCmp (isDescendingOrder ord) a b := rfl

/-- On two records whose mileages are both numbers, the coerced source
comparator and the total proxy agree. -/
theorem sortCompare_eq_num {crit ord : List Char} {a b : TileData}
    (ha : a.mileage.isSome = true) (hb : b.mileage.isSome = true) :
    sortCompare crit ord a b = compareTilesNum crit ord a b := by
  obtain ⟨x, hx⟩ := Option.isSome_iff_exists.mp ha
  obtain ⟨y, hy⟩ := Option.isSome_iff_exists.mp hb
  cases hc1 : (crit == "alphabetical".data) <;>
    cases hc2 : (crit == "merchantMileage".data) <;>
    simp only [sortCompare, compareTiles, compareTilesNum, hc1, hc2,
      Bool.false_eq_true, if_true, if_false]
  · rw [mileageCmpRaw_eq_num hx hy]
  · rw [mileageCmpRaw_eq_num hx hy]
    by_cases hz : mileageCmp ((combinedDirs ord).1 == "desc".data) a b = 0
    · rw [if_neg (by simp [hz]), if_neg (by simp [hz])]
    · rw [if_pos (by simpa using hz), if_pos hz]

theorem compareTilesNum_swap (crit ord : List Char) (a b : TileData) :
    compareTilesNum crit ord b a = -compareTilesNum crit ord a b := by
  cases hc1 : (crit == "alphabetical".data) <;>
    cases hc2 : (crit == "merchantMileage".data) <;>
    simp only [compareTilesNum, hc1, hc2, Bool.false_eq_true, if_true, if_false]
  · rw [mileageCmp_swap]
  · by_cases hm : mileageCmp ((combinedDirs ord).1 == "desc".data) a b = 0
    · have hm2 : mileageCmp ((combinedDirs ord).1 == "desc".data) b a = 0 := by
        rw [mileageCmp_swap, hm, neg_zero]
      rw [if_neg (by simp [hm2]), if_neg (by simp [hm]), nameCmp_swap]
      push_cast
      ring
    · have hm2 : mileageCmp ((combinedDirs ord).1 == "desc".data) b a ≠ 0 := by
        rw [mileageCmp_swap]
        simpa using hm
      rw [if_pos hm2, if_pos hm, mileageCmp_swap]
  · rw [nameCmp_swap]
    push_cast
    ring
  · rw [nameCmp_swap]
    push_cast
    ring

theorem compareTilesNum_trans (crit ord : List Char) (a b c : TileData)
    (h1 : compareTilesNum crit ord a b ≤ 0) (h2 : compareTilesNum crit ord b c ≤ 0) :
    compareTilesNum crit ord a c ≤ 0 := by
  cases hc1 : (crit == "alphabetical".data) <;>
    cases hc2 : (crit == "merchantMileage".data) <;>
    simp only [compareTilesNum, hc1, hc2, Bool.false_eq_true, if_true, if_false] at h1 h2 ⊢
  · have hadd := mileageCmp_add (isDescendingOrder ord) a b c
    linarith
  · set d1 := ((combinedDirs ord).1 == "desc".data) with hd1
    set d2 := ((combinedDirs ord).2 == "desc".data) with hd2
    have hadd := mileageCmp_add d1 a b c
    by_cases hab : mileageCmp d1 a b = 0 <;> by_cases hbc : mileageCmp d1 b c = 0
    · have hac : mileageCmp d1 a c = 0 := by rw [← hadd, hab, hbc]; ring
      rw [if_neg (by simp [hab])] at h1
      rw [if_neg (by simp [hbc])] at h2
      rw [if_neg (by simp [hac])]
      have hn1 : nameCmp d2 a b ≤ 0 := by exact_mod_cast h1
      have hn2 : nameCmp d2 b c ≤ 0 := by exact_mod_cast h2
      exact_mod_cast nameCmp_le_trans d2 a b c hn1 hn2
    · rw [if_pos hbc] at h2
      have hac : mileageCmp d1 a c ≠ 0 := by
        rw [← hadd, hab]
        simpa using fun h => hbc (by linarith)
      rw [if_pos hac]
      rw [← hadd, hab]
      linarith
    · rw [if_pos hab] at h1
      have hac : mileageCmp d1 a c ≠ 0 := by
        rw [← hadd, hbc]
        simpa using fun h => hab (by linarith)
      rw [if_pos hac]
      rw [← hadd, hbc]
      linarith
    · rw [if_pos hab] at h1
      rw [if_pos hbc] at h2
      have hablt : mileageCmp d1 a b < 0 := lt_of_le_of_ne h1 hab
      have hbclt : mileageCmp d1 b c < 0 := lt_of_le_of_ne h2 hbc
      have hac : mileageCmp d1 a c ≠ 0 := by
        rw [← hadd]
        linarith
      rw [if_pos hac, ← hadd]
      linarith
  · have hn1 : nameCmp (isDescendingOrder ord) a b ≤ 0 := by exact_mod_cast h1
    have hn2 : nameCmp (isDescendingOrder ord) b c ≤ 0 := by exact_mod_cast h2
    exact_mod_cast nameCmp_le_trans _ a b c hn1 hn2
  · have hn1 : nameCmp (isDescendingOrder ord) a b ≤ 0 := by exact_mod_cast h1
    have hn2 : nameCmp (isDescendingOrder ord) b c ≤ 0 := by exact_mod_cast h2
    exact_mod_cast nameCmp_le_trans _ a b c hn1 hn2
/-- Congruence of the stable merge sort in the comparison function: two
comparison functions that agree on every pair of list members sort the list
identically (instance of map_mergeSort at the identity map). -/
theorem mergeSort_congr (le1 le2 : TileData → TileData → Bool) (l : List TileData)
    (h : ∀ a ∈ l, ∀ b ∈ l, le1 a b = le2 a b) :
    l.mergeSort le1 = l.mergeSort le2 := by
  have hm := @List.map_mergeSort TileData TileData le1 le2 id l h
  simpa using hm

/-- On a list of records whose mileages are all numbers, the sort of the
coerced source comparator coincides with the sort of the total proxy
comparator. -/
theorem sortTiles_eq_num (crit ord : List Char) (l : List TileData)
    (hnum : ∀ t ∈ l, t.mileage.isSome = true) :
    sortTiles crit ord l =
      l.mergeSort (fun a b => decide (compareTilesNum crit ord a b ≤ 0)) := by
  apply mergeSort_congr
  intro a ha b hb
  simp only [sortCompare_eq_num (hnum a ha) (hnum b hb)]

theorem sorted_mergeSortNum (crit ord : List Char) (l : List TileData) :
    (l.mergeSort (fun a b => decide (compareTilesNum crit ord a b ≤ 0))).Pairwise
      (fun a b => compareTilesNum crit ord a b ≤ 0) := by
  have htrans : ∀ (a b c : TileData),
      decide (compareTilesNum crit ord a b ≤ 0) = true →
      decide (compareTilesNum crit ord b c ≤ 0) = true →
      decide (compareTilesNum crit ord a c ≤ 0) = true := by
    intro a b c hab hbc
    exact decide_eq_true (compareTilesNum_trans crit ord a b c
      (of_decide_eq_true hab) (of_decide_eq_true hbc))
  have htotal : ∀ (a b : TileData),
      (decide (compareTilesNum crit ord a b ≤ 0) ||
        decide (compareTilesNum crit ord b a ≤ 0)) = true := by
    intro a b
    rcases le_or_lt (compareTilesNum crit ord a b) 0 with h | h
    · simp [h]
    · have hba : compareTilesNum crit ord b a ≤ 0 := by
        rw [compareTilesNum_swap]
        linarith
      simp [hba]
  have h := List.sorted_mergeSort htrans htotal l
  exact h.imp (fun hab => of_decide_eq_true hab)

theorem sortTiles_idem (crit ord : List Char) (l : List TileData)
    (hnum : ∀ t ∈ l, t.mileage.isSome = true) :
    sortTiles crit ord (sortTiles crit ord l) = sortTiles crit ord l := by
  have hnum2 : ∀ t ∈ sortTiles crit ord l, t.mileage.isSome = true := by
    intro t ht
    exact hnum t ((List.mergeSort_perm l _).subset ht)
  rw [sortTiles_eq_num crit ord (sortTiles crit ord l) hnum2,
    sortTiles_eq_num crit ord l hnum]
  apply List.mergeSort_of_sorted
  exact (sorted_mergeSortNum crit ord l).imp (fun hab => decide_eq_true hab)

theorem sorted_strict_unique (crit ord : List Char) :
    ∀ (l1 l2 : List TileData), l1.Perm l2 →
      l1.Pairwise (fun a b => compareTilesNum crit ord a b ≤ 0) →
      l2.Pairwise (fun a b => compareTilesNum crit ord a b ≤ 0) →
      l1.Pairwise (fun a b => compareTilesNum crit ord a b ≠ 0) →
      l1 = l2
  | [], l2, hp, _, _, _ => (List.Perm.eq_nil hp.symm).symm
  | a :: t1, l2, hp, hs1, hs2, hstrict => by
    cases l2 with
    | nil => exact List.Perm.eq_nil hp
    | cons b t2 =>
      have hab : a = b := by
        by_contra hne
        have hbmem : b ∈ a :: t1 := hp.symm.subset (List.mem_cons_self _ _)
        have hamem : a ∈ b :: t2 := hp.subset (List.mem_cons_self _ _)
        have hbt1 : b ∈ t1 := by
          rcases List.mem_cons.mp hbmem with h | h
          · exact absurd h.symm hne
          · exact h
        have hat2 : a ∈ t2 := by
          rcases List.mem_cons.mp hamem with h | h
          · exact absurd h hne
          · exact h
        have h1 : compareTilesNum crit ord a b ≤ 0 := (List.pairwise_cons.mp hs1).1 b hbt1
        have h2 : compareTilesNum crit ord b a ≤ 0 := (List.pairwise_cons.mp hs2).1 a hat2
        have h3 : compareTilesNum crit ord a b ≠ 0 := (List.pairwise_cons.mp hstrict).1 b hbt1
        rw [compareTilesNum_swap] at h2
        exact h3 (le_antisymm h1 (by linarith))
      subst hab
      have hpt : t1.Perm t2 := hp.cons_inv
      rw [sorted_strict_unique crit ord t1 t2 hpt (List.pairwise_cons.mp hs1).2
        (List.pairwise_cons.mp hs2).2 (List.pairwise_cons.mp hstrict).2]

/-- The direction-reversal pairs of the supported sort requests: asc and desc
for the mileage and alphabetical criteria, and the four componentwise reversed
direction pairs for the combined merchantMileage criteria. -/
def OppositeOrders (crit ord ord2 : List Char) : Prop :=
  (crit, ord, ord2) ∈ ([
    ("mileage".data, "asc".data, "desc".data),
    ("mileage".data, "desc".data, "asc".data),
    ("alphabetical".data, "asc".data, "desc".data),
    ("alphabetical".data, "desc".data, "asc".data),
    ("merchantMileage".data, "asc-asc".data, "desc-desc".data),
    ("merchantMileage".data, "asc-desc".data, "desc-asc".data),
    ("merchantMileage".data, "desc-asc".data, "asc-desc".data),
    ("merchantMileage".data, "desc-desc".data, "asc-asc".data)] :
    List (List Char × List Char × List Char))

theorem mileageCmp_not (d : Bool) (a b : TileData) :
    mileageCmp (!d) a b = -mileageCmp d a b := by
  cases d <;> simp [mileageCmp]

theorem nameCmp_not (d : Bool) (a b : TileData) :
    nameCmp (!d) a b = -nameCmp d a b := by
  cases d <;> simp [nameCmp]

theorem combinedIf_neg (da db : Bool) (a b : TileData) :
    (if mileageCmp (!da) a b ≠ 0 then mileageCmp (!da) a b
     else ((nameCmp (!db) a b : Int) : ℚ)) =
    -(if mileageCmp da a b ≠ 0 then mileageCmp da a b
      else ((nameCmp db a b : Int) : ℚ)) := by
  by_cases hm : mileageCmp da a b = 0
  · have hm2 : mileageCmp (!da) a b = 0 := by rw [mileageCmp_not, hm, neg_zero]
    rw [if_neg (by simp [hm2]), if_neg (by simp [hm]), nameCmp_not]
    push_cast
    ring
  · have hm2 : mileageCmp (!da) a b ≠ 0 := by
      rw [mileageCmp_not]
      simpa using hm
    rw [if_pos hm2, if_pos hm, mileageCmp_not]

theorem compareTilesNum_opposite {crit ord ord2 : List Char}
    (h : OppositeOrders crit ord ord2) (a b : TileData) :
    compareTilesNum crit ord2 a b = -compareTilesNum crit ord a b := by
  unfold OppositeOrders at h
  simp only [List.mem_cons, List.not_mem_nil, or_false, Prod.mk.injEq] at h
  rcases h with ⟨h1, h2, h3⟩ | ⟨h1, h2, h3⟩ | ⟨h1, h2, h3⟩ | ⟨h1, h2, h3⟩ |
    ⟨h1, h2, h3⟩ | ⟨h1, h2, h3⟩ | ⟨h1, h2, h3⟩ | ⟨h1, h2, h3⟩ <;>
    subst h1 <;> subst h2 <;> subst h3
  · rw [compareTilesNum_mileage, compareTilesNum_mileage]
    exact mileageCmp_not false a b
  · rw [compareTilesNum_mileage, compareTilesNum_mileage]
    exact mileageCmp_not true a b
  · rw [compareTilesNum_alphabetical, compareTilesNum_alphabetical,
      show isDescendingOrder ("desc".data) = true from rfl,
      show isDescendingOrder ("asc".data) = false from rfl,
      show nameCmp true a b = -nameCmp false a b from nameCmp_not false a b]
    push_cast
    ring
  · rw [compareTilesNum_alphabetical, compareTilesNum_alphabetical,
      show isDescendingOrder ("asc".data) = false from rfl,
      show isDescendingOrder ("desc".data) = true from rfl,
      show nameCmp false a b = -nameCmp true a b from nameCmp_not true a b]
    push_cast
    ring
  · rw [compareTilesNum_merchantMileage, compareTilesNum_merchantMileage]
    exact combinedIf_neg false false a b
  · rw [compareTilesNum_merchantMileage, compareTilesNum_merchantMileage]
    exact combinedIf_neg false true a b
  · rw [compareTilesNum_merchantMileage, compareTilesNum_merchantMileage]
    exact combinedIf_neg true false a b
  · rw [compareTilesNum_merchantMileage, compareTilesNum_merchantMileage]
    exact combinedIf_neg true true a b

theorem sortTiles_reverse {crit ord ord2 : List Char} (l : List TileData)
    (hopp : OppositeOrders crit ord ord2)
    (hnum : ∀ t ∈ l, t.mileage.isSome = true)
    (hstrict : l.Pairwise (fun a b => sortCompare crit ord a b ≠ 0)) :
    sortTiles crit ord2 l = (sortTiles crit ord l).reverse := by
  have hstrictN : l.Pairwise (fun a b => compareTilesNum crit ord a b ≠ 0) :=
    List.Pairwise.imp_of_mem
      (fun ha hb hab => by
        rw [← sortCompare_eq_num (hnum _ ha) (hnum _ hb)]
        exact hab) hstrict
  rw [sortTiles_eq_num crit ord2 l hnum, sortTiles_eq_num crit ord l hnum]
  have hperm : (l.mergeSort (fun a b => decide (compareTilesNum crit ord2 a b ≤ 0))).Perm
      ((l.mergeSort (fun a b => decide (compareTilesNum crit ord a b ≤ 0))).reverse) :=
    (List.mergeSort_perm l _).trans
      ((List.mergeSort_perm l _).symm.trans (List.reverse_perm _).symm)
  have hs2 := sorted_mergeSortNum crit ord2 l
  have hs1 := sorted_mergeSortNum crit ord l
  have hstrict2 : (l.mergeSort
      (fun a b => decide (compareTilesNum crit ord2 a b ≤ 0))).Pairwise
      (fun a b => compareTilesNum crit ord2 a b ≠ 0) := by
    have hsym : ∀ {x y : TileData},
        compareTilesNum crit ord2 x y ≠ 0 → compareTilesNum crit ord2 y x ≠ 0 := by
      intro x y hxy
      rw [compareTilesNum_swap]
      simpa using hxy
    have hl : l.Pairwise (fun a b => compareTilesNum crit ord2 a b ≠ 0) := by
      refine hstrictN.imp ?_
      intro x y hxy
      rw [compareTilesNum_opposite hopp]
      simpa using hxy
    exact (List.Perm.pairwise_iff hsym (List.mergeSort_perm l _)).mpr hl
  have hsrev : ((l.mergeSort
      (fun a b => decide (compareTilesNum crit ord a b ≤ 0))).reverse).Pairwise
      (fun a b => compareTilesNum crit ord2 a b ≤ 0) := by
    rw [List.pairwise_reverse]
    refine hs1.imp ?_
    intro x y hxy
    rw [compareTilesNum_swap, compareTilesNum_opposite hopp]
    simpa using hxy
  exact sorted_strict_unique crit ord2 _ _ hperm hs2 hsrev hstrict2
/-- C3 counterexample: under the merchantMileage criteria at order desc-asc,
a record with NaN mileage against a record with mileage 5000 has unequal
mileage fields, yet the comparator returns NaN and the coerced comparison is a
tie, not the directed mileage comparison; and two records that both carry NaN
mileage (equal mileage fields) with distinct merchant names are not ordered by
the name comparison (which is nonzero on them): the comparator again returns
NaN and the pair is tied, so the claimed mileage-then-name ordering fails on
NaN records, which reachable reward text produces. -/
theorem C3_counterexample :
    (⟨none, "apple".data⟩ : TileData).mileage ≠
      (⟨some 5000, "zebra".data⟩ : TileData).mileage ∧
    compareTiles "merchantMileage".data "desc-asc".data
      ⟨none, "apple".data⟩ ⟨some 5000, "zebra".data⟩ = none ∧
    sortCompare "merchantMileage".data "desc-asc".data
      ⟨none, "apple".data⟩ ⟨some 5000, "zebra".data⟩ = 0 ∧
    (⟨none, "apple".data⟩ : TileData).mileage =
      (⟨none, "zebra".data⟩ : TileData).mileage ∧
    nameCmp ((combinedDirs ("desc-asc".data)).2 == "desc".data)
      ⟨none, "apple".data⟩ ⟨none, "zebra".data⟩ ≠ 0 ∧
    compareTiles "merchantMileage".data "desc-asc".data
      ⟨none, "apple".data⟩ ⟨none, "zebra".data⟩ = none ∧
    sortCompare "merchantMileage".data "desc-asc".data
      ⟨none, "apple".data⟩ ⟨none, "zebra".data⟩ = 0 :=
  ⟨by decide, by decide, by decide, by decide, by decide, by decide, by decide⟩

/-- C3 (amended): under the merchantMileage criteria, for two records whose
mileage values are both numbers, unequal values are ordered by the directed
mileage comparison alone, in the mileage direction parsed from the order
string (the merchant names are never read, and the comparison is nonzero), and
equal values are ordered by the directed case-insensitive merchant-name
comparison in the merchant direction; when either record's mileage is NaN the
comparator returns NaN and Array.prototype.sort treats the pair as a tie, so
the merchant names are not consulted even when the mileage fields are equal
(both NaN). -/
theorem C3_combined_sort (ord : List Char) (a b : TileData) :
    (∀ x y : ℚ, a.mileage = some x → b.mileage = some y →
      (x ≠ y →
        sortCompare "merchantMileage".data ord a b =
          mileageCmp ((combinedDirs ord).1 == "desc".data) a b ∧
        mileageCmp ((combinedDirs ord).1 == "desc".data) a b ≠ 0) ∧
      (x = y →
        sortCompare "merchantMileage".data ord a b =
          ((nameCmp ((combinedDirs ord).2 == "desc".data) a b : Int) : ℚ))) ∧
    ((a.mileage = none ∨ b.mileage = none) →
      compareTiles "merchantMileage".data ord a b = none ∧
      sortCompare "merchantMileage".data ord a b = 0) := by
  constructor
  · intro x y hx hy
    have hxs : a.mileage.isSome = true := by rw [hx]; rfl
    have hys : b.mileage.isSome = true := by rw [hy]; rfl
    have hva : mileageVal a = x := by simp [mileageVal, hx]
    have hvb : mileageVal b = y := by simp [mileageVal, hy]
    constructor
    · intro hne
      have hm : mileageCmp ((combinedDirs ord).1 == "desc".data) a b ≠ 0 := by
        cases hd : ((combinedDirs ord).1 == "desc".data) <;>
          simp only [mileageCmp, Bool.false_eq_true, if_true, if_false,
            sub_ne_zero, hva, hvb]
        · exact hne
        · exact fun h => hne h.symm
      refine ⟨?_, hm⟩
      rw [sortCompare_eq_num hxs hys, compareTilesNum_merchantMileage, if_pos hm]
    · intro heq
      have hm : mileageCmp ((combinedDirs ord).1 == "desc".data) a b = 0 := by
        cases hd : ((combinedDirs ord).1 == "desc".data) <;>
          simp [mileageCmp, hva, hvb, heq]
      rw [sortCompare_eq_num hxs hys, compareTilesNum_merchantMileage,
        if_neg (by simp [hm])]
  · intro hnone
    have hmr : mileageCmpRaw ((combinedDirs ord).1 == "desc".data) a b = none := by
      rcases hnone with h | h <;>
        cases hd : ((combinedDirs ord).1 == "desc".data) <;>
        simp [mileageCmpRaw, h, subJS_none_left, subJS_none_right]
    have hraw : compareTiles "merchantMileage".data ord a b = none := by
      rw [compareTiles_merchantMileage, if_pos (by simp [hmr]), hmr]
    refine ⟨hraw, ?_⟩
    rw [sortCompare_eq, hraw]

/-- Witness for C3 at the order desc-asc: two records with numeric unequal
mileage values are ordered by the directed mileage comparison, and a record
with NaN mileage makes the comparator return NaN with a tied coerced result. -/
theorem C3_combined_sort_witness :
    (sortCompare "merchantMileage".data "desc-asc".data
        ⟨some 5000, "zebra".data⟩ ⟨some 10000, "apple".data⟩ =
      mileageCmp ((combinedDirs "desc-asc".data).1 == "desc".data)
        ⟨some 5000, "zebra".data⟩ ⟨some 10000, "apple".data⟩ ∧
      mileageCmp ((combinedDirs "desc-asc".data).1 == "desc".data)
        ⟨some 5000, "zebra".data⟩ ⟨some 10000, "apple".data⟩ ≠ 0) ∧
    (compareTiles "merchantMileage".data "desc-asc".data
        ⟨none, "target".data⟩ ⟨some 10000, "apple".data⟩ = none ∧
      sortCompare "merchantMileage".data "desc-asc".data
        ⟨none, "target".data⟩ ⟨some 10000, "apple".data⟩ = 0) :=
  ⟨((C3_combined_sort "desc-asc".data ⟨some 5000, "zebra".data⟩
        ⟨some 10000, "apple".data⟩).1 5000 10000 rfl rfl).1 (by norm_num),
    (C3_combined_sort "desc-asc".data ⟨none, "target".data⟩
        ⟨some 10000, "apple".data⟩).2 (Or.inl rfl)⟩

/-- Record list with one NaN mileage on which the modelled Array.sort is not
idempotent: the comparator returns NaN against the NaN record, each such pair
is coerced to a tie, and the comparator is inconsistent, so one merge pass
moves the 1 past the NaN record while a second pass moves the trailing 0 past
it again. -/
def tilesNaN : List TileData :=
  [⟨some 1, "m".data⟩, ⟨some 0, "m".data⟩, ⟨some 0, "m".data⟩,
   ⟨some 0, "m".data⟩, ⟨none, "m".data⟩, ⟨some 0, "m".data⟩]

/-- The coerced comparator of the mileage criteria at order asc as a plain
boolean switch: a NaN on either side is a tie (nonpositive), otherwise the
numeric difference is compared with zero. -/
def ascMileageLE (a b : TileData) : Bool :=
  a.mileage.isNone || b.mileage.isNone ||
    decide (mileageVal a - mileageVal b ≤ 0)

theorem sortCompare_asc_mileage :
    (fun a b => decide (sortCompare "mileage".data "asc".data a b ≤ 0)) =
      ascMileageLE := by
  funext a b
  have hd : isDescendingOrder ("asc".data) = false := rfl
  rw [sortCompare_eq, compareTiles_mileage, hd]
  have hr : mileageCmpRaw false a b = subJS a.mileage b.mileage := rfl
  rw [hr]
  unfold ascMileageLE
  cases ha : a.mileage <;> cases hb : b.mileage <;>
    simp [subJS, mileageVal, ha, hb]

/-- C4 counterexample: on a six-record list containing one NaN mileage,
sorting by mileage ascending and then sorting the result again with the same
criteria and order yields a different sequence, so sorting the already-sorted
data is not a no-op in the stable-merge-sort determinization of Array.sort. -/
theorem C4_counterexample :
    sortTiles "mileage".data "asc".data
        (sortTiles "mileage".data "asc".data tilesNaN) ≠
      sortTiles "mileage".data "asc".data tilesNaN := by
  have h1 : sortTiles "mileage".data "asc".data tilesNaN =
      [⟨some 0, "m".data⟩, ⟨some 0, "m".data⟩, ⟨some 0, "m".data⟩,
       ⟨some 1, "m".data⟩, ⟨none, "m".data⟩, ⟨some 0, "m".data⟩] := by
    simp only [sortTiles, sortCompare_asc_mileage]
    norm_num [tilesNaN, List.mergeSort, List.merge, ascMileageLE,
      mileageVal, Option.isNone]
  have h2 : sortTiles "mileage".data "asc".data
      ([⟨some 0, "m".data⟩, ⟨some 0, "m".data⟩, ⟨some 0, "m".data⟩,
        ⟨some 1, "m".data⟩, ⟨none, "m".data⟩, ⟨some 0, "m".data⟩] :
        List TileData) =
      [⟨some 0, "m".data⟩, ⟨some 0, "m".data⟩, ⟨some 0, "m".data⟩,
       ⟨some 0, "m".data⟩, ⟨some 1, "m".data⟩, ⟨none, "m".data⟩] := by
    simp only [sortTiles, sortCompare_asc_mileage]
    norm_num [List.mergeSort, List.merge, ascMileageLE,
      mileageVal, Option.isNone]
  rw [h1, h2]
  simp

/-- C4 (amended): on a record list whose mileage values are all numbers,
applying the same sort twice yields the identical ordering (idempotence); and
for each of the supported direction-reversal order pairs, when additionally
the coerced comparator strictly distinguishes every two records of the list,
sorting with the reversed order yields exactly the reverse of the sorted
sequence. On a list containing a NaN mileage the comparator is inconsistent,
ECMAScript leaves the sort order implementation-defined, and the
determinization is not idempotent. -/
theorem C4_sort_idem_reverse (crit ord ord2 : List Char) (l : List TileData) :
    ((∀ t ∈ l, t.mileage.isSome = true) →
      sortTiles crit ord (sortTiles crit ord l) = sortTiles crit ord l) ∧
    (OppositeOrders crit ord ord2 →
      (∀ t ∈ l, t.mileage.isSome = true) →
      l.Pairwise (fun a b => sortCompare crit ord a b ≠ 0) →
      sortTiles crit ord2 l = (sortTiles crit ord l).reverse) :=
  ⟨fun hnum => sortTiles_idem crit ord l hnum,
    fun hopp hnum hstrict => sortTiles_reverse l hopp hnum hstrict⟩

/-- Concrete all-numeric record list for the C4 witness. -/
def tilesC4 : List TileData :=
  [⟨some 5000, "amazon".data⟩, ⟨some 10000, "bestbuy".data⟩,
   ⟨some 3000, "costco".data⟩]

/-- Witness for C4: on three records with numeric, pairwise distinct mileages,
the mileage sort at order asc is idempotent and the sort at order desc is the
reverse of the sort at order asc. -/
theorem C4_sort_idem_reverse_witness :
    sortTiles "mileage".data "asc".data
        (sortTiles "mileage".data "asc".data tilesC4) =
      sortTiles "mileage".data "asc".data tilesC4 ∧
    sortTiles "mileage".data "desc".data tilesC4 =
      (sortTiles "mileage".data "asc".data tilesC4).reverse := by
  have hnum : ∀ t ∈ tilesC4, t.mileage.isSome = true := by decide
  have hd : isDescendingOrder ("asc".data) = false := rfl
  have hstrict : tilesC4.Pairwise
      (fun a b => sortCompare "mileage".data "asc".data a b ≠ 0) := by
    unfold tilesC4
    refine List.pairwise_cons.mpr ⟨?_, List.pairwise_cons.mpr ⟨?_,
      List.pairwise_cons.mpr ⟨fun b hb => absurd hb (List.not_mem_nil b),
        List.Pairwise.nil⟩⟩⟩
    · intro b hb
      rcases List.mem_cons.mp hb with rfl | hb
      · rw [sortCompare_eq, compareTiles_mileage, hd]
        norm_num [mileageCmpRaw, subJS]
      rcases List.mem_cons.mp hb with rfl | hb
      · rw [sortCompare_eq, compareTiles_mileage, hd]
        norm_num [mileageCmpRaw, subJS]
      · exact absurd hb (List.not_mem_nil b)
    · intro b hb
      rcases List.mem_cons.mp hb with rfl | hb
      · rw [sortCompare_eq, compareTiles_mileage, hd]
        norm_num [mileageCmpRaw, subJS]
      · exact absurd hb (List.not_mem_nil b)
  exact ⟨(C4_sort_idem_reverse "mileage".data "asc".data "desc".data tilesC4).1 hnum,
    (C4_sort_idem_reverse "mileage".data "asc".data "desc".data tilesC4).2
      (by unfold OppositeOrders; decide) hnum hstrict⟩
/-! Tile filter of applyFavoritesFilter (the extended variant with offer-type
and channel predicates, lines 120-153), and detectChannelType
(src/shared/domHelpers.ts lines 329-340). -/

/-- Head test of substring containment. -/
def beginsWith : List Char → List Char → Bool
  | _, [] => true
  | [], _ :: _ => false
  | c :: cs, p :: ps => c == p && beginsWith cs ps

/-- Model of String.prototype.includes: the pattern occurs somewhere in the
subject. -/
def containsSeq : List Char → List Char → Bool
  | s, pat =>
    match s with
    | [] => pat.isEmpty
    | _ :: rest => beginsWith s pat || containsSeq rest pat

/-- The set of redemption channels detected on a tile. -/
structure ChannelSet where
  inStore : Bool
  inApp : Bool
  online : Bool
deriving DecidableEq

/-- Embedding of detectChannelType: lowercase the channel heading text and test
it for the in-store, in-app and online markers (dashed or spaced). -/
def detectChannelType (channelText : List Char) : ChannelSet :=
  let text := channelText.map Char.toLower
  { inStore := containsSeq text ("in-store".data) || containsSeq text ("in store".data)
    inApp := containsSeq text ("in-app".data) || containsSeq text ("in app".data)
    online := containsSeq text ("online".data) }

/-- The channel filter values of the request. -/
inductive ChannelFilter
  | all
  | inStore
  | inApp
  | online
deriving DecidableEq

/-- The offer-type filter values of the request. -/
inductive TypeFilter
  | all
  | multiplier
  | static
deriving DecidableEq

/-- Membership of a requested channel in a detected channel set (the has test
of the Set of channels). -/
def ChannelSet.hasChannel (s : ChannelSet) (c : ChannelFilter) : Bool :=
  match c with
  | .all => false
  | .inStore => s.inStore
  | .inApp => s.inApp
  | .online => s.online

/-- Equality test of the detected offer type against a non-all type filter
(the strict equality of the source). -/
def typeMatches (t : OfferType) (f : TypeFilter) : Bool :=
  match t, f with
  | .multiplier, .multiplier => true
  | .static, .static => true
  | _, _ => false

/-- A tile as seen by the filter: the extracted merchant domain, the reward
text, and the text of the channel heading. -/
structure Tile where
  merchantTLD : List Char
  mileageText : List Char
  channelText : List Char
deriving DecidableEq

/-- Per-tile decision of applyFavoritesFilter (lines 120-141): the favorites
predicate passes when the filter is off or the tile is favorited, the type
predicate when the filter is all or the detected offer type equals it, the
channel predicate when the filter is all or the detected channel set contains
the requested channel; the tile is shown only when all three pass. -/
def shouldShowTile (showFavoritesOnly : Bool) (favoritedTLDs : List (List Char))
    (offerTypeFilter : TypeFilter) (channelFilter : ChannelFilter) (tile : Tile) : Bool :=
  let isFavorited := favoritedTLDs.contains tile.merchantTLD
  let matchesTypeFilter :=
    if offerTypeFilter == .all then true
    else typeMatches (detectOfferType tile.mileageText) offerTypeFilter
  let matchesChannelFilter :=
    if channelFilter == .all then true
    else (detectChannelType tile.channelText).hasChannel channelFilter
  let matchesFavoritesFilter := !showFavoritesOnly || isFavorited
  matchesFavoritesFilter && matchesTypeFilter && matchesChannelFilter

/-- The two counters accumulated by the filter loop. -/
structure FilterCounts where
  tilesShown : Nat
  tilesHidden : Nat
deriving DecidableEq

/-- One iteration of the filter loop: the tile increments exactly one of the
two counters, according to the per-tile decision. -/
def filterStep (showFavoritesOnly : Bool) (favoritedTLDs : List (List Char))
    (offerTypeFilter : TypeFilter) (channelFilter : ChannelFilter)
    (acc : FilterCounts) (tile : Tile) : FilterCounts :=
  if shouldShowTile showFavoritesOnly favoritedTLDs offerTypeFilter channelFilter tile
  then ⟨acc.tilesShown + 1, acc.tilesHidden⟩
  else ⟨acc.tilesShown, acc.tilesHidden + 1⟩

/-- The filter loop of applyFavoritesFilter over the tiles found at call time,
starting from zero counters. -/
def runFilterCounts (showFavoritesOnly : Bool) (favoritedTLDs : List (List Char))
    (offerTypeFilter : TypeFilter) (channelFilter : ChannelFilter)
    (tiles : List Tile) : FilterCounts :=
  tiles.foldl (filterStep showFavoritesOnly favoritedTLDs offerTypeFilter channelFilter) ⟨0, 0⟩

/-- C5: the channel filter is inclusive. A tile is shown under a non-all
channel filter only if its detected channel set contains the requested
channel; a tile whose detected channel set is exactly in-store and online
matches a request for in-store and a request for online but not for in-app;
and the overall decision is the conjunction of the favorites, type and channel
predicates of the source. -/
theorem C5_channel_filter (fav : Bool) (favs : List (List Char))
    (tf : TypeFilter) (tile : Tile) :
    (∀ cf : ChannelFilter, cf ≠ ChannelFilter.all →
      shouldShowTile fav favs tf cf tile = true →
      (detectChannelType tile.channelText).hasChannel cf = true) ∧
    (detectChannelType tile.channelText = ⟨true, false, true⟩ →
      (detectChannelType tile.channelText).hasChannel ChannelFilter.inStore = true ∧
      (detectChannelType tile.channelText).hasChannel ChannelFilter.online = true ∧
      (detectChannelType tile.channelText).hasChannel ChannelFilter.inApp = false) ∧
    (∀ cf : ChannelFilter,
      shouldShowTile fav favs tf cf tile = true ↔
        ((!fav || favs.contains tile.merchantTLD) = true ∧
         (if tf == TypeFilter.all then true
          else typeMatches (detectOfferType tile.mileageText) tf) = true ∧
         (if cf == ChannelFilter.all then true
          else (detectChannelType tile.channelText).hasChannel cf) = true)) := by
  refine ⟨?_, ?_, ?_⟩
  · intro cf hne hshow
    simp only [shouldShowTile, Bool.and_eq_true] at hshow
    have h3 := hshow.2
    have hcf : (cf == ChannelFilter.all) = false := by
      cases cf <;> simp_all
    rw [if_neg (by simp [hcf])] at h3
    exact h3
  · intro h
    rw [h]
    exact ⟨rfl, rfl, rfl⟩
  · intro cf
    simp only [shouldShowTile, Bool.and_eq_true]
    tauto

/-- Concrete tile for the C5 witness: its channel heading names in-store and
online. -/
def tileC5 : Tile := ⟨"amazon.com".data, "5X miles".data, "In-Store & Online".data⟩

/-- Witness for C5 at a tile whose detected channels are in-store and online. -/
theorem C5_channel_filter_witness :
    (detectChannelType tileC5.channelText).hasChannel ChannelFilter.inStore = true ∧
    (detectChannelType tileC5.channelText).hasChannel ChannelFilter.online = true ∧
    (detectChannelType tileC5.channelText).hasChannel ChannelFilter.inApp = false :=
  (C5_channel_filter false [] TypeFilter.all tileC5).2.1 (by decide)

theorem foldl_filterStep_sum (fav : Bool) (favs : List (List Char))
    (tf : TypeFilter) (cf : ChannelFilter) :
    ∀ (tiles : List Tile) (acc : FilterCounts),
      (tiles.foldl (filterStep fav favs tf cf) acc).tilesShown +
        (tiles.foldl (filterStep fav favs tf cf) acc).tilesHidden =
        acc.tilesShown + acc.tilesHidden + tiles.length
  | [], acc => by simp
  | t :: ts, acc => by
    rw [List.foldl_cons, foldl_filterStep_sum fav favs tf cf ts (filterStep fav favs tf cf acc t)]
    unfold filterStep
    split <;> simp <;> omega

theorem foldl_filterStep_noFilters (favs : List (List Char)) :
    ∀ (tiles : List Tile) (acc : FilterCounts),
      (tiles.foldl (filterStep false favs TypeFilter.all ChannelFilter.all) acc).tilesHidden =
        acc.tilesHidden
  | [], _ => rfl
  | t :: ts, acc => by
    rw [List.foldl_cons, foldl_filterStep_noFilters favs ts _]
    unfold filterStep
    have h : shouldShowTile false favs TypeFilter.all ChannelFilter.all t = true := by
      simp [shouldShowTile]
    rw [if_pos h]

/-- C10: every filter run partitions the examined tiles: each tile is counted
as exactly one of shown or hidden, so tilesShown plus tilesHidden equals the
number of tiles found at call time; and with no active filters (favorites off,
type all, channel all) tilesHidden is 0 and tilesShown is the total. -/
theorem C10_filter_partition (fav : Bool) (favs : List (List Char))
    (tf : TypeFilter) (cf : ChannelFilter) (tiles : List Tile) :
    (runFilterCounts fav favs tf cf tiles).tilesShown +
      (runFilterCounts fav favs tf cf tiles).tilesHidden = tiles.length ∧
    (fav = false → tf = TypeFilter.all → cf = ChannelFilter.all →
      (runFilterCounts fav favs tf cf tiles).tilesHidden = 0 ∧
      (runFilterCounts fav favs tf cf tiles).tilesShown = tiles.length) := by
  have hsum := foldl_filterStep_sum fav favs tf cf tiles ⟨0, 0⟩
  constructor
  · simpa [runFilterCounts] using hsum
  · rintro rfl rfl rfl
    have hh : (runFilterCounts false favs TypeFilter.all ChannelFilter.all tiles).tilesHidden
        = 0 := by
      have h := foldl_filterStep_noFilters favs tiles ⟨0, 0⟩
      simpa [runFilterCounts] using h
    refine ⟨hh, ?_⟩
    have hs : (runFilterCounts false favs TypeFilter.all ChannelFilter.all tiles).tilesShown +
        (runFilterCounts false favs TypeFilter.all ChannelFilter.all tiles).tilesHidden =
        tiles.length := by
      simpa [runFilterCounts] using hsum
    omega

/-- Concrete tile for the C10 witness. -/
def tileC10 : Tile := ⟨"shop.example".data, "60,000 miles".data, "Online".data⟩

/-- Witness for C10: a run with no active filters over one tile hides nothing
and shows the single tile. -/
theorem C10_filter_partition_witness :
    (runFilterCounts false [] TypeFilter.all ChannelFilter.all [tileC10]).tilesHidden = 0 ∧
    (runFilterCounts false [] TypeFilter.all ChannelFilter.all [tileC10]).tilesShown =
      ([tileC10] : List Tile).length :=
  (C10_filter_partition false [] TypeFilter.all ChannelFilter.all [tileC10]).2 rfl rfl rfl

/-! Mutual-exclusion guard of executeSorting (lines 152-164 and the finally
block at lines 356-359). -/

/-- The result object returned by executeSorting. -/
structure SortResult where
  success : Bool
  tilesProcessed : Nat
  pagesLoaded : Nat
  error : Option (List Char)
deriving DecidableEq

/-- The error message of the rejection branch. -/
def sortBusyMsg : List Char :=
  "A sort operation is already in progress. Please wait for it to complete.".data

/-- Outcome of the guard at the top of executeSorting: either the request is
rejected synchronously with an error result, or the operation starts. -/
inductive SortRequestOutcome
  | rejected (r : SortResult)
  | started
deriving DecidableEq

/-- The guard at lines 154-164: if the isSortInProgress flag is set, return the
failure result (success false, zero tiles, zero pages, the busy message)
without touching the flag and without queueing anything; otherwise set the flag
and start. The check runs synchronously before the first await, so two
back-to-back requests cannot both pass it. -/
def sortGuardEnter (isSortInProgress : Bool) : SortRequestOutcome × Bool :=
  if isSortInProgress then
    (SortRequestOutcome.rejected ⟨false, 0, 0, some sortBusyMsg⟩, isSortInProgress)
  else
    (SortRequestOutcome.started, true)

/-- The finally block at lines 356-359: the flag is cleared when the operation
terminates, successfully or not. -/
def sortGuardExit (_isSortInProgress : Bool) : Bool := false

/-- One step of the request/completion trace of the sorting module state. -/
inductive SortEvent
  | request
  | complete
deriving DecidableEq

/-- Run a trace of sort requests and completions against the module flag,
collecting the outcome of every request. -/
def runSortEvents : List SortEvent → Bool → Bool × List SortRequestOutcome
  | [], flag => (flag, [])
  | SortEvent.request :: evs, flag =>
    let r := sortGuardEnter flag
    let rest := runSortEvents evs r.2
    (rest.1, r.1 :: rest.2)
  | SortEvent.complete :: evs, flag => runSortEvents evs (sortGuardExit flag)

/-- C6: while a sort is in flight (flag set) a request is rejected
synchronously with a failure result carrying success false and zero tiles
processed, and the state is left unchanged (nothing is queued); from an idle
state a request starts; after any termination the flag is cleared so the next
request starts again; and on the back-to-back trace request, request,
complete, request from idle, the outcomes are started, rejected, started. -/
theorem C6_sort_mutex (s : Bool) :
    (s = true → sortGuardEnter s =
      (SortRequestOutcome.rejected ⟨false, 0, 0, some sortBusyMsg⟩, true)) ∧
    (s = false → sortGuardEnter s = (SortRequestOutcome.started, true)) ∧
    sortGuardEnter (sortGuardExit s) = (SortRequestOutcome.started, true) ∧
    runSortEvents
        [SortEvent.request, SortEvent.request, SortEvent.complete, SortEvent.request]
        false =
      (true, [SortRequestOutcome.started,
              SortRequestOutcome.rejected ⟨false, 0, 0, some sortBusyMsg⟩,
              SortRequestOutcome.started]) := by
  refine ⟨?_, ?_, rfl, rfl⟩
  · rintro rfl
    rfl
  · rintro rfl
    rfl

/-- Witness for C6 at the busy state. -/
theorem C6_sort_mutex_witness :
    sortGuardEnter true =
      (SortRequestOutcome.rejected ⟨false, 0, 0, some sortBusyMsg⟩, true) :=
  (C6_sort_mutex true).1 rfl

/-! Adaptive pagination delay of paginateInPageContext
(src/injected-scripts/pagination.ts lines 317-323, 543-554 and 652-707).
The floating-point delays are modelled as rationals. -/

/-- Starting delay (line 317). -/
def INITIAL_DELAY : ℚ := 200

/-- Delay floor (line 318). -/
def MIN_DELAY : ℚ := 150

/-- Delay ceiling (line 319). -/
def MAX_DELAY : ℚ := 4000

/-- Response time considered fast (line 322). -/
def FAST_THRESHOLD : ℚ := 300

/-- Response time considered slow (line 323). -/
def SLOW_THRESHOLD : ℚ := 1000

/-- Bound of the moving-average window (line 554). -/
def HISTORY_SIZE : Nat := 5

/-- One loop iteration as seen by the delay adaptation: either new tiles
appeared after the click, with the measured click-to-new-tiles response time,
or no new tiles appeared. -/
inductive PageResponse
  | success (responseTime : ℚ)
  | failure

/-- The adaptation state: the current delay, the consecutive-failure counter,
and the bounded response-time history. -/
structure PaginationAdaptState where
  currentDelay : ℚ
  consecutiveFailures : Nat
  responseTimeHistory : List ℚ

/-- One adaptation step (lines 652-707). On success the response time is
pushed into the bounded history, the moving average decides whether to shrink
the delay by 25 percent (fast), shrink it by 12 percent (normal) or keep it
(slow), clamped below by MIN_DELAY, and the failure counter resets. On failure
the counter increments and the delay grows by 60 percent, by 100 percent, or
snaps to MAX_DELAY on the first, second and later consecutive failures,
clamped above by MAX_DELAY. -/
def adaptStep (st : PaginationAdaptState) (ev : PageResponse) : PaginationAdaptState :=
  match ev with
  | PageResponse.success rt =>
    let pushed := st.responseTimeHistory ++ [rt]
    let hist := if pushed.length > HISTORY_SIZE then pushed.drop 1 else pushed
    let avg := (hist.foldl (fun s t => s + t) 0) / (hist.length : ℚ)
    let d :=
      if avg < FAST_THRESHOLD then max (st.currentDelay * (3 / 4)) MIN_DELAY
      else if avg < SLOW_THRESHOLD then max (st.currentDelay * (22 / 25)) MIN_DELAY
      else st.currentDelay
    ⟨d, 0, hist⟩
  | PageResponse.failure =>
    let n := st.consecutiveFailures + 1
    let d :=
      if n = 1 then min (st.currentDelay * (8 / 5)) MAX_DELAY
      else if n = 2 then min (st.currentDelay * 2) MAX_DELAY
      else MAX_DELAY
    ⟨d, n, st.responseTimeHistory⟩

/-- The adaptation state at the start of a pagination run (lines 543-546). -/
def initialAdaptState : PaginationAdaptState := ⟨INITIAL_DELAY, 0, []⟩

/-- The adaptation state after feeding a sequence of loop outcomes to the run. -/
def runAdapt (evs : List PageResponse) : PaginationAdaptState :=
  evs.foldl adaptStep initialAdaptState

theorem delayChain_bounds (avg d : ℚ) (h1 : MIN_DELAY ≤ d) (h2 : d ≤ MAX_DELAY) :
    MIN_DELAY ≤ (if avg < FAST_THRESHOLD then max (d * (3 / 4)) MIN_DELAY
      else if avg < SLOW_THRESHOLD then max (d * (22 / 25)) MIN_DELAY else d) ∧
    (if avg < FAST_THRESHOLD then max (d * (3 / 4)) MIN_DELAY
      else if avg < SLOW_THRESHOLD then max (d * (22 / 25)) MIN_DELAY else d) ≤
      MAX_DELAY := by
  have hmm : (MIN_DELAY : ℚ) ≤ MAX_DELAY := by norm_num [MIN_DELAY, MAX_DELAY]
  have hpos : (0 : ℚ) ≤ d := le_trans (by norm_num [MIN_DELAY]) h1
  split
  · exact ⟨le_max_right _ _, max_le (by nlinarith) hmm⟩
  · split
    · exact ⟨le_max_right _ _, max_le (by nlinarith) hmm⟩
    · exact ⟨h1, h2⟩

theorem delayGrow_bounds (n : Nat) (d : ℚ) (h1 : MIN_DELAY ≤ d) (h2 : d ≤ MAX_DELAY) :
    MIN_DELAY ≤ (if n = 1 then min (d * (8 / 5)) MAX_DELAY
      else if n = 2 then min (d * 2) MAX_DELAY else MAX_DELAY) ∧
    (if n = 1 then min (d * (8 / 5)) MAX_DELAY
      else if n = 2 then min (d * 2) MAX_DELAY else MAX_DELAY) ≤ MAX_DELAY := by
  have hmm : (MIN_DELAY : ℚ) ≤ MAX_DELAY := by norm_num [MIN_DELAY, MAX_DELAY]
  have hpos : (0 : ℚ) ≤ d := le_trans (by norm_num [MIN_DELAY]) h1
  split
  · exact ⟨le_min (by nlinarith) hmm, min_le_right _ _⟩
  · split
    · exact ⟨le_min (by nlinarith) hmm, min_le_right _ _⟩
    · exact ⟨hmm, le_refl _⟩

theorem adaptStep_bounds (st : PaginationAdaptState) (ev : PageResponse)
    (h1 : MIN_DELAY ≤ st.currentDelay) (h2 : st.currentDelay ≤ MAX_DELAY) :
    MIN_DELAY ≤ (adaptStep st ev).currentDelay ∧
      (adaptStep st ev).currentDelay ≤ MAX_DELAY := by
  cases ev with
  | success rt =>
    simp only [adaptStep]
    exact delayChain_bounds _ st.currentDelay h1 h2
  | failure =>
    simp only [adaptStep]
    exact delayGrow_bounds _ st.currentDelay h1 h2

/-- C7: starting from the initial delay, after every adaptation step driven by
any sequence of fast, normal or slow successes and consecutive failures, the
current delay stays within the closed interval from MIN_DELAY to MAX_DELAY. -/
theorem C7_delay_bounds (evs : List PageResponse) :
    MIN_DELAY ≤ (runAdapt evs).currentDelay ∧
      (runAdapt evs).currentDelay ≤ MAX_DELAY := by
  suffices h : ∀ (l : List PageResponse) (st : PaginationAdaptState),
      MIN_DELAY ≤ st.currentDelay → st.currentDelay ≤ MAX_DELAY →
      MIN_DELAY ≤ (l.foldl adaptStep st).currentDelay ∧
        (l.foldl adaptStep st).currentDelay ≤ MAX_DELAY by
    exact h evs initialAdaptState (by norm_num [initialAdaptState, INITIAL_DELAY, MIN_DELAY])
      (by norm_num [initialAdaptState, INITIAL_DELAY, MAX_DELAY])
  intro l
  induction l with
  | nil => exact fun st h1 h2 => ⟨h1, h2⟩
  | cons ev evs ih =>
    intro st h1 h2
    rw [List.foldl_cons]
    obtain ⟨g1, g2⟩ := adaptStep_bounds st ev h1 h2
    exact ih (adaptStep st ev) g1 g2

/-! Cross-context progress marker protocol: the page-realm half writes the
data-timestamp attribute from the clock after every successful click
(pagination.ts lines 657-666), and the orchestrating half de-duplicates
observed markers by timestamp (the progress MutationObserver of the
orchestrator, lines 100-150 of its module). -/

/-- A progress marker as observed by the orchestrating half: the values of the
data-timestamp, data-offers-loaded and data-pages-loaded attributes. -/
structure ProgressMarker where
  timestamp : Nat
  offersLoaded : Nat
  pagesLoaded : Nat
deriving DecidableEq

/-- The timestamps the page-realm half writes: the clock sampled at each of
the write instants of one run (the writes happen at successive instants of
the page's event loop). -/
def writeTimestamps (clock : Nat → Nat) (instants : List Nat) : List Nat :=
  instants.map clock

/-- The de-duplication fold of the progress observer: a marker is forwarded
exactly when its timestamp differs from lastProgressTimestamp, which is then
updated to it; every other marker is dropped. -/
def observeMarkers (last : Nat) : List ProgressMarker → List ProgressMarker
  | [] => []
  | m :: rest =>
    if m.timestamp ≠ last then m :: observeMarkers m.timestamp rest
    else observeMarkers last rest

theorem observeMarkers_strict (last : Nat) :
    ∀ (ms : List ProgressMarker),
      (last :: ms.map ProgressMarker.timestamp).Pairwise (· ≤ ·) →
      (last :: (observeMarkers last ms).map ProgressMarker.timestamp).Pairwise (· < ·)
  | [], _ => by simp [observeMarkers]
  | m :: rest, h => by
    rw [List.map_cons, List.pairwise_cons] at h
    obtain ⟨hle, hrest⟩ := h
    by_cases hne : m.timestamp ≠ last
    · rw [observeMarkers, if_pos hne]
      have hlt : last < m.timestamp :=
        lt_of_le_of_ne (hle m.timestamp (by simp)) (fun he => hne he.symm)
      have hih := observeMarkers_strict m.timestamp rest hrest
      rw [List.map_cons, List.pairwise_cons]
      refine ⟨?_, hih⟩
      intro t ht
      rcases List.mem_cons.mp ht with rfl | ht
      · exact hlt
      · rw [List.pairwise_cons] at hih
        exact lt_trans hlt (hih.1 t ht)
    · rw [observeMarkers, if_neg hne]
      apply observeMarkers_strict last rest
      rw [List.pairwise_cons]
      push_neg at hne
      refine ⟨?_, (List.pairwise_cons.mp hrest).2⟩
      intro t ht
      rw [← hne]
      exact (List.pairwise_cons.mp hrest).1 t ht

/-- C8: within one run, the timestamps written by the page-realm half are
monotonically non-decreasing whenever the clock is (Date.now never runs
backwards during a run); and when the observed marker sequence is
non-decreasing starting at the last processed timestamp, the forwarded
sequence is strictly increasing, so every forwarded marker advances beyond
the last processed timestamp and each distinct progress update is forwarded
at most once. -/
theorem C8_progress_markers (clock : Nat → Nat) (instants : List Nat)
    (last : Nat) (ms : List ProgressMarker) :
    ((∀ i j, i ≤ j → clock i ≤ clock j) → instants.Pairwise (· ≤ ·) →
      (writeTimestamps clock instants).Pairwise (· ≤ ·)) ∧
    ((last :: ms.map ProgressMarker.timestamp).Pairwise (· ≤ ·) →
      (last :: (observeMarkers last ms).map ProgressMarker.timestamp).Pairwise (· < ·)) := by
  constructor
  · intro hclock hinst
    unfold writeTimestamps
    exact List.Pairwise.map clock (fun i j hij => hclock i j hij) hinst
  · exact observeMarkers_strict last ms

/-- Witness for C8: observing the duplicate-then-advance marker sequence with
timestamps 5, 5, 7 from last timestamp 0 forwards a strictly increasing
sequence. -/
theorem C8_progress_markers_witness :
    (0 :: (observeMarkers 0
        [⟨5, 40, 1⟩, ⟨5, 40, 1⟩, ⟨7, 60, 2⟩]).map ProgressMarker.timestamp).Pairwise
      (· < ·) :=
  (C8_progress_markers id [1, 2, 3] 0 [⟨5, 40, 1⟩, ⟨5, 40, 1⟩, ⟨7, 60, 2⟩]).2 (by decide)

/-! Resolution of the orchestrating half of a pagination run
(executePaginationInPageContext): the promise resolves at the first result
marker insertion, script load error, or hard timeout. -/

/-- The hard timeout armed around the run: 240000 milliseconds, four minutes. -/
def TIMEOUT_MS : Nat := 240000

/-- Embedding of parsePaginationResult (lines 5-24 of the orchestrator): a
missing element or attribute, a non-numeric value, or a negative value all
collapse to zero pages. -/
def parsePaginationResult (attr : Option (List Char)) : Nat :=
  match attr with
  | none => 0
  | some s =>
    match parseIntSigned s with
    | none => 0
    | some n => if n < 0 then 0 else n.toNat

/-- An event the orchestrating half can observe while awaiting the run: the
result marker is inserted (carrying the optional data-pages-loaded attribute),
the injected script fails to load or execute, or the hard timeout fires. -/
inductive BridgeEvent
  | resultInserted (pagesLoadedAttr : Option (List Char))
  | scriptError
  | timeoutFired
deriving DecidableEq

/-- First-event-wins resolution of the run promise: the result marker resolves
with the parsed page count, a script error or the timeout resolve with zero
pages; none models a still-pending promise. -/
def resolveRun : List BridgeEvent → Option Nat
  | [] => none
  | BridgeEvent.resultInserted a :: _ => some (parsePaginationResult a)
  | BridgeEvent.scriptError :: _ => some 0
  | BridgeEvent.timeoutFired :: _ => some 0

/-- C9: the hard timeout is four minutes (240000 ms), and with it appended the
run always resolves: if no result marker is ever inserted the run resolves
with zero pages (through the script-error or timeout paths) instead of hanging
or faulting; and a run whose first observation is a script load error resolves
with zero pages immediately. -/
theorem C9_timeout_and_bridge_failure (evs : List BridgeEvent) :
    TIMEOUT_MS = 240000 ∧
    ((∀ e ∈ evs, ∀ a, e ≠ BridgeEvent.resultInserted a) →
      resolveRun (evs ++ [BridgeEvent.timeoutFired]) = some 0) ∧
    (∀ rest : List BridgeEvent, resolveRun (BridgeEvent.scriptError :: rest) = some 0) := by
  refine ⟨rfl, ?_, fun rest => rfl⟩
  intro hnores
  induction evs with
  | nil => rfl
  | cons e rest ih =>
    cases e with
    | resultInserted a =>
      exact absurd rfl (hnores _ (List.mem_cons_self _ _) a)
    | scriptError => rfl
    | timeoutFired => rfl

/-- Witness for C9 at the empty observation list: the timeout alone resolves
the run with zero pages. -/
theorem C9_timeout_witness :
    resolveRun ([] ++ [BridgeEvent.timeoutFired]) = some 0 :=
  (C9_timeout_and_bridge_failure []).2.1 (by simp)
